import Mathlib

/-!
# Pagination core of the Duo admin API client (`admin/admin.go`)

A shallow embedding of the list results, the `responsePage` interface, the
pagination driver `Client.retrieveItems`, the public list operations, the URL
options and `User.URLValues`, followed by theorems about them.

Conventions of the embedding.

* Go pointers to results are values; a nil pointer or nil interface is `none`.
* `uint64` is `Nat`, `int` is `Int`, a slice is a `List`, `json.Number` is the
  `String` it wraps; the Go field `Type` is written `Type_`.
* `duoapi.StatResult`, the `error` interface and the state a fetch closure
  captures (the transport, the remote server) are type parameters `S`, `ε`, `σ`.
* A run-time panic is an explicit outcome, and the unbounded `for` loop of the
  driver takes a fuel argument that bounds the number of iterations.
-/

namespace Admin

/-! ## Resource records -/

/-- Group models a group to which users may belong. -/
structure Group where
  Desc : String
  GroupID : String
  MobileOTPEnabled : Bool
  Name : String
  PushEnabled : Bool
  SMSEnabled : Bool
  Status : String
  VoiceEnabled : Bool
deriving DecidableEq, Repr

mutual

/-- User models a single user. `Aliases` is a Go map: `none` is the nil map,
`some kvs` a map holding the bindings `kvs`. -/
inductive User where
  | mk (Alias1 : Option String) (Alias2 : Option String) (Alias3 : Option String)
      (Alias4 : Option String) (Aliases : Option (List (String × String)))
      (Created : Nat) (Email : String) (FirstName : Option String)
      (Groups : List Group) (IsEnrolled : Bool) (LastDirectorySync : Option Nat)
      (LastLogin : Option Nat) (LastName : Option String) (Notes : String)
      (Phones : List Phone) (RealName : Option String) (Status : String)
      (Tokens : List Token) (UserID : String) (Username : String)

/-- Phone models a user's phone. -/
inductive Phone where
  | mk (Activated : Bool) (Capabilities : List String) (Encrypted : String)
      (Extension : String) (Fingerprint : String) (LastSeen : String)
      (Model : String) (Name : String) (Number : String) (PhoneID : String)
      (Platform : String) (Postdelay : String) (Predelay : String)
      (Screenlock : String) (SMSPasscodesSent : Bool) (Tampered : String)
      (Type_ : String) (Users : List User)

/-- Token models a hardware security token. -/
inductive Token where
  | mk (TokenID : String) (Type_ : String) (Serial : String)
      (TOTPStep : Option Int) (Users : List User)

end

/-- U2FToken models a U2F security token. -/
structure U2FToken where
  DateAdded : Nat
  RegistrationID : String
  User : Option User

/-- A value held in a field of Go type `interface{}` after JSON decoding. -/
inductive JSONValue where
  | null
  | bool (b : Bool)
  | number (text : String)
  | string (s : String)
  | array (vs : List JSONValue)
  | object (kvs : List (String × JSONValue))

/-- Integration models an application integration. -/
structure Integration where
  AdminApiAdmins : Int
  AdminApiInfo : Int
  AdminApiIntegrations : Int
  AdminApiReadLog : Int
  AdminApiReadResource : Int
  AdminApiSettings : Int
  AdminApiWriteResource : Int
  FramelessAuthPromptEnabled : Option Int
  Greeting : String
  GroupsAllowed : List String
  IntegrationKey : String
  Name : String
  NetworksForApiAccess : Option String
  Notes : String
  PolicyKey : String
  PromptV4Enabled : String
  SecretKey : String
  SelfServiceAllowed : JSONValue
  Type_ : String
  UsernameNormalizationPolicy : String

/-- Administrator models an admin user. -/
structure Administrator where
  AdminID : String
  AdminUnits : List String
  Created : Nat
  Email : String
  HardToken : Option Token
  LastLogin : Nat
  Name : String
  PasswordChangeRequired : Bool
  Phone : String
  RestrictedByAdminUnits : Bool
  Role : String
  Status : String

/-- AdministrativeUnit models an administrative unit. -/
structure AdministrativeUnit where
  AdminUnitID : String
  Description : String
  Name : String
  Groups : Option (List String)
  Integrations : Option (List String)
  RestrictByGroups : Bool
  RestrictByIntegrations : Bool
deriving DecidableEq, Repr

/-! ## Pagination metadata and list results -/

/-- The `metadata` object of a paged response. -/
structure ListResultMetadata where
  NextOffset : String
  PrevOffset : String
  TotalObjects : String
deriving DecidableEq, Repr

/-- The part shared by every list result. -/
structure ListResult where
  Metadata : ListResultMetadata
deriving DecidableEq, Repr

/-- Method `(*ListResult).metadata`. -/
def ListResult.metadata (l : ListResult) : ListResultMetadata :=
  l.Metadata

/-- GetUsersResult models responses containing a list of users. -/
structure GetUsersResult (S : Type) extends ListResult where
  StatResult : S
  Response : List User

/-- GetGroupsResult models responses containing a list of groups. -/
structure GetGroupsResult (S : Type) extends ListResult where
  StatResult : S
  Response : List Group

/-- GetPhonesResult models responses containing a list of phones. -/
structure GetPhonesResult (S : Type) extends ListResult where
  StatResult : S
  Response : List Phone

/-- GetTokensResult models responses containing a list of tokens. -/
structure GetTokensResult (S : Type) extends ListResult where
  StatResult : S
  Response : List Token

/-- GetU2FTokensResult models responses containing a list of U2F tokens. -/
structure GetU2FTokensResult (S : Type) extends ListResult where
  StatResult : S
  Response : List U2FToken

/-- GetIntegrationsResult models responses containing a list of integrations. -/
structure GetIntegrationsResult (S : Type) extends ListResult where
  StatResult : S
  Response : List Integration

/-- GetAdministratorsResult models responses containing a list of administrators. -/
structure GetAdministratorsResult (S : Type) extends ListResult where
  StatResult : S
  Response : List Administrator

/-- GetAdministrativeUnitsResult models responses containing a list of administrative units. -/
structure GetAdministrativeUnitsResult (S : Type) extends ListResult where
  StatResult : S
  Response : List AdministrativeUnit

/-- The value of type `interface{}` that travels between `getResponse` and
`appendResponse`: a slice together with its dynamic type. Only the eight slice
types returned by the `getResponse` methods occur. -/
inductive ResponseItems where
  | users (xs : List User)
  | groups (xs : List Group)
  | phones (xs : List Phone)
  | tokens (xs : List Token)
  | u2fTokens (xs : List U2FToken)
  | integrations (xs : List Integration)
  | administrators (xs : List Administrator)
  | administrativeUnits (xs : List AdministrativeUnit)

/-- Method `(*GetUsersResult).getResponse`. -/
def GetUsersResult.getResponse {S : Type} (result : GetUsersResult S) : ResponseItems :=
  .users result.Response

/-- Method `(*GetUsersResult).appendResponse`. The type assertion panics when the
argument does not hold a `[]User`: the outcome is then `none`. -/
def GetUsersResult.appendResponse {S : Type} (result : GetUsersResult S) :
    ResponseItems → Option (GetUsersResult S)
  | .users asserted => some { result with Response := result.Response ++ asserted }
  | _ => none

/-- Method `(*GetGroupsResult).getResponse`. -/
def GetGroupsResult.getResponse {S : Type} (result : GetGroupsResult S) : ResponseItems :=
  .groups result.Response

/-- Method `(*GetGroupsResult).appendResponse`. The type assertion panics when the
argument does not hold a `[]Group`: the outcome is then `none`. -/
def GetGroupsResult.appendResponse {S : Type} (result : GetGroupsResult S) :
    ResponseItems → Option (GetGroupsResult S)
  | .groups asserted => some { result with Response := result.Response ++ asserted }
  | _ => none

/-- Method `(*GetPhonesResult).getResponse`. -/
def GetPhonesResult.getResponse {S : Type} (result : GetPhonesResult S) : ResponseItems :=
  .phones result.Response

/-- Method `(*GetPhonesResult).appendResponse`. The type assertion panics when the
argument does not hold a `[]Phone`: the outcome is then `none`. -/
def GetPhonesResult.appendResponse {S : Type} (result : GetPhonesResult S) :
    ResponseItems → Option (GetPhonesResult S)
  | .phones asserted => some { result with Response := result.Response ++ asserted }
  | _ => none

/-- Method `(*GetTokensResult).getResponse`. -/
def GetTokensResult.getResponse {S : Type} (result : GetTokensResult S) : ResponseItems :=
  .tokens result.Response

/-- Method `(*GetTokensResult).appendResponse`. The type assertion panics when the
argument does not hold a `[]Token`: the outcome is then `none`. -/
def GetTokensResult.appendResponse {S : Type} (result : GetTokensResult S) :
    ResponseItems → Option (GetTokensResult S)
  | .tokens asserted => some { result with Response := result.Response ++ asserted }
  | _ => none

/-- Method `(*GetU2FTokensResult).getResponse`. -/
def GetU2FTokensResult.getResponse {S : Type} (result : GetU2FTokensResult S) : ResponseItems :=
  .u2fTokens result.Response

/-- Method `(*GetU2FTokensResult).appendResponse`. The type assertion panics when the
argument does not hold a `[]U2FToken`: the outcome is then `none`. -/
def GetU2FTokensResult.appendResponse {S : Type} (result : GetU2FTokensResult S) :
    ResponseItems → Option (GetU2FTokensResult S)
  | .u2fTokens asserted => some { result with Response := result.Response ++ asserted }
  | _ => none

/-- Method `(*GetIntegrationsResult).getResponse`. -/
def GetIntegrationsResult.getResponse {S : Type} (result : GetIntegrationsResult S) : ResponseItems :=
  .integrations result.Response

/-- Method `(*GetIntegrationsResult).appendResponse`. The type assertion panics when the
argument does not hold a `[]Integration`: the outcome is then `none`. -/
def GetIntegrationsResult.appendResponse {S : Type} (result : GetIntegrationsResult S) :
    ResponseItems → Option (GetIntegrationsResult S)
  | .integrations asserted => some { result with Response := result.Response ++ asserted }
  | _ => none

/-- Method `(*GetAdministratorsResult).getResponse`. -/
def GetAdministratorsResult.getResponse {S : Type} (result : GetAdministratorsResult S) : ResponseItems :=
  .administrators result.Response

/-- Method `(*GetAdministratorsResult).appendResponse`. The type assertion panics when the
argument does not hold a `[]Administrator`: the outcome is then `none`. -/
def GetAdministratorsResult.appendResponse {S : Type} (result : GetAdministratorsResult S) :
    ResponseItems → Option (GetAdministratorsResult S)
  | .administrators asserted => some { result with Response := result.Response ++ asserted }
  | _ => none

/-- Method `(*GetAdministrativeUnitsResult).getResponse`. -/
def GetAdministrativeUnitsResult.getResponse {S : Type} (result : GetAdministrativeUnitsResult S) : ResponseItems :=
  .administrativeUnits result.Response

/-- Method `(*GetAdministrativeUnitsResult).appendResponse`. The type assertion panics when the
argument does not hold a `[]AdministrativeUnit`: the outcome is then `none`. -/
def GetAdministrativeUnitsResult.appendResponse {S : Type} (result : GetAdministrativeUnitsResult S) :
    ResponseItems → Option (GetAdministrativeUnitsResult S)
  | .administrativeUnits asserted => some { result with Response := result.Response ++ asserted }
  | _ => none

/-- A non-nil value of interface type `responsePage`. Its three methods are
unexported, so the eight list results of this package are its only
implementations. -/
inductive ResponsePage (S : Type) where
  | users (result : GetUsersResult S)
  | groups (result : GetGroupsResult S)
  | phones (result : GetPhonesResult S)
  | tokens (result : GetTokensResult S)
  | u2fTokens (result : GetU2FTokensResult S)
  | integrations (result : GetIntegrationsResult S)
  | administrators (result : GetAdministratorsResult S)
  | administrativeUnits (result : GetAdministrativeUnitsResult S)

/-- Interface method `responsePage.metadata`. -/
def ResponsePage.metadata {S : Type} : ResponsePage S → ListResultMetadata
  | .users result => result.toListResult.metadata
  | .groups result => result.toListResult.metadata
  | .phones result => result.toListResult.metadata
  | .tokens result => result.toListResult.metadata
  | .u2fTokens result => result.toListResult.metadata
  | .integrations result => result.toListResult.metadata
  | .administrators result => result.toListResult.metadata
  | .administrativeUnits result => result.toListResult.metadata

/-- Interface method `responsePage.getResponse`. -/
def ResponsePage.getResponse {S : Type} : ResponsePage S → ResponseItems
  | .users result => result.getResponse
  | .groups result => result.getResponse
  | .phones result => result.getResponse
  | .tokens result => result.getResponse
  | .u2fTokens result => result.getResponse
  | .integrations result => result.getResponse
  | .administrators result => result.getResponse
  | .administrativeUnits result => result.getResponse

/-- Interface method `responsePage.appendResponse`; `none` is the panic of a
failed type assertion. -/
def ResponsePage.appendResponse {S : Type} (page : ResponsePage S) (items : ResponseItems) :
    Option (ResponsePage S) :=
  match page with
  | .users result => (result.appendResponse items).map .users
  | .groups result => (result.appendResponse items).map .groups
  | .phones result => (result.appendResponse items).map .phones
  | .tokens result => (result.appendResponse items).map .tokens
  | .u2fTokens result => (result.appendResponse items).map .u2fTokens
  | .integrations result => (result.appendResponse items).map .integrations
  | .administrators result => (result.appendResponse items).map .administrators
  | .administrativeUnits result => (result.appendResponse items).map .administrativeUnits

/-! ## Request parameters -/

/-- Request parameters, Go's `url.Values` (a `map[string][]string`): `none` for
a key that is absent. -/
def Values : Type := String → Option (List String)

/-- The empty parameter set `url.Values{}`. -/
def Values.empty : Values := fun _ => none

/-- Method `url.Values.Get`: the first value of the key, the empty string when
the key is absent or has no values. -/
def Values.Get (v : Values) (key : String) : String :=
  match v key with
  | some (first :: _) => first
  | _ => ""

/-- Method `url.Values.Set`: the key is bound to the single value given. -/
def Values.Set (v : Values) (key value : String) : Values :=
  fun k => if k = key then some [value] else v k

/-! ## The pagination driver -/

/-- What one call of a fetch function returns: a page (`none` for nil) and an
error (`none` for nil). -/
structure FetchResult (S ε : Type) where
  page : Option (ResponsePage S)
  err : Option ε

/-- Type `pageFetcher`. The closure's captured state is passed in and out. The
parameters are read, not modified, by a fetch function. -/
def pageFetcher (S ε σ : Type) : Type := Values → σ → FetchResult S ε × σ

/-- The run-time panics of the driver and its wrappers. -/
inductive Panic where
  | nilDereference
  | typeAssertion
  | uncomparable
deriving DecidableEq, Repr

/-- How a call ends: it returns a (result, error) pair, `none` for nil, or it
panics. -/
inductive Outcome (α ε : Type) where
  | returned (page : Option α) (err : Option ε)
  | panicked (cause : Panic)

/-- One call of the fetch function: the parameters passed and what came back. -/
structure Call (S ε : Type) where
  params : Values
  result : FetchResult S ε

/-- A call of the driver as far as the fuel let it run: its outcome (`none` when
the fuel ran out with the loop still running), the fetch calls it made in the
order it made them, and the state it left the fetch closure in. -/
structure Run (S ε σ : Type) where
  outcome : Option (Outcome (ResponsePage S) ε)
  calls : List (Call S ε)
  state : σ

/-- Records that the fetch call `c` was made before the run `r`. -/
def Run.after {S ε σ : Type} (c : Call S ε) (r : Run S ε σ) : Run S ε σ :=
  { r with calls := c :: r.calls }

/-- The `for params.Get("offset") != ""` loop of `retrieveItems`, entered with
the given parameters and accumulator. One unit of fuel is used per iteration. -/
def retrieveLoop {S ε σ : Type} (fetcher : pageFetcher S ε σ) :
    Nat → Values → ResponsePage S → σ → Run S ε σ
  | fuel, params, accumulator, s =>
    if params.Get "offset" ≠ "" then
      match fuel with
      | 0 => ⟨none, [], s⟩
      | fuel + 1 =>
        match fetcher params s with
        | (next, s1) =>
          match next.err with
          | some err => ⟨some (.returned none (some err)), [⟨params, next⟩], s1⟩
          | none =>
            match next.page with
            | none => ⟨some (.panicked .nilDereference), [⟨params, next⟩], s1⟩
            | some nextResult =>
              match nextResult.appendResponse accumulator.getResponse with
              | none => ⟨some (.panicked .typeAssertion), [⟨params, next⟩], s1⟩
              | some merged =>
                (retrieveLoop fetcher fuel
                  (params.Set "offset" merged.metadata.NextOffset) merged s1).after
                  ⟨params, next⟩
    else
      ⟨some (.returned (some accumulator) none), [], s⟩

/-- Method `(*Client).retrieveItems`. -/
def retrieveItems {S ε σ : Type} (fetcher : pageFetcher S ε σ) (fuel : Nat)
    (params : Values) (s : σ) : Run S ε σ :=
  let params := if params.Get "offset" = "" then params.Set "offset" "0" else params
  if params.Get "limit" = "" then
    let params := params.Set "limit" "100"
    match fetcher params s with
    | (first, s1) =>
      match first.err with
      | some firstErr => ⟨some (.returned none (some firstErr)), [⟨params, first⟩], s1⟩
      | none =>
        match first.page with
        | none => ⟨some (.panicked .nilDereference), [⟨params, first⟩], s1⟩
        | some accumulator =>
          (retrieveLoop fetcher fuel
            (params.Set "offset" accumulator.metadata.NextOffset) accumulator s1).after
            ⟨params, first⟩
  else
    match fetcher params s with
    | (only, s1) => ⟨some (.returned only.page only.err), [⟨params, only⟩], s1⟩

/-! ## The public list operations -/

/-- The type assertion `response.(*T)` of a wrapper, one per result type `T`, on
a non-nil page: `none` when the page is of another type. -/
structure Asserts (S α : Type) where
  wrap : α → ResponsePage S
  assert : ResponsePage S → Option α

/-- Conversion to and type assertion from `responsePage` for `*GetUsersResult`. -/
def asUsers (S : Type) : Asserts S (GetUsersResult S) where
  wrap := .users
  assert
    | .users result => some result
    | _ => none

/-- Conversion to and type assertion from `responsePage` for `*GetGroupsResult`. -/
def asGroups (S : Type) : Asserts S (GetGroupsResult S) where
  wrap := .groups
  assert
    | .groups result => some result
    | _ => none

/-- Conversion to and type assertion from `responsePage` for `*GetPhonesResult`. -/
def asPhones (S : Type) : Asserts S (GetPhonesResult S) where
  wrap := .phones
  assert
    | .phones result => some result
    | _ => none

/-- Conversion to and type assertion from `responsePage` for `*GetTokensResult`. -/
def asTokens (S : Type) : Asserts S (GetTokensResult S) where
  wrap := .tokens
  assert
    | .tokens result => some result
    | _ => none

/-- Conversion to and type assertion from `responsePage` for `*GetU2FTokensResult`. -/
def asU2FTokens (S : Type) : Asserts S (GetU2FTokensResult S) where
  wrap := .u2fTokens
  assert
    | .u2fTokens result => some result
    | _ => none

/-- Conversion to and type assertion from `responsePage` for `*GetIntegrationsResult`. -/
def asIntegrations (S : Type) : Asserts S (GetIntegrationsResult S) where
  wrap := .integrations
  assert
    | .integrations result => some result
    | _ => none

/-- Conversion to and type assertion from `responsePage` for `*GetAdministratorsResult`. -/
def asAdministrators (S : Type) : Asserts S (GetAdministratorsResult S) where
  wrap := .administrators
  assert
    | .administrators result => some result
    | _ => none

/-- Conversion to and type assertion from `responsePage` for `*GetAdministrativeUnitsResult`. -/
def asAdministrativeUnits (S : Type) : Asserts S (GetAdministrativeUnitsResult S) where
  wrap := .administrativeUnits
  assert
    | .administrativeUnits result => some result
    | _ => none

/-- The collaborators of a `Client`: `SignedCall` of the embedded `duoapi.DuoApi`
(method, path and parameters in, response body and error out; the HTTP response
it also returns is discarded by every caller here, and the option
`duoapi.UseTimeout` is always passed), and `json.Unmarshal` into a fresh result
of each list type. -/
structure Client (S ε σ : Type) where
  SignedCall : String → String → Values → σ → (List UInt8 × Option ε) × σ
  unmarshalUsers : List UInt8 → Except ε (GetUsersResult S)
  unmarshalGroups : List UInt8 → Except ε (GetGroupsResult S)
  unmarshalPhones : List UInt8 → Except ε (GetPhonesResult S)
  unmarshalTokens : List UInt8 → Except ε (GetTokensResult S)
  unmarshalU2FTokens : List UInt8 → Except ε (GetU2FTokensResult S)
  unmarshalIntegrations : List UInt8 → Except ε (GetIntegrationsResult S)
  unmarshalAdministrators : List UInt8 → Except ε (GetAdministratorsResult S)
  unmarshalAdministrativeUnits : List UInt8 → Except ε (GetAdministrativeUnitsResult S)

/-- The body shared by the `retrieve...` methods: a signed GET of `path`, then
the decoding of the body. -/
def Client.retrieveList {S ε σ α : Type} (c : Client S ε σ) (path : String)
    (unmarshal : List UInt8 → Except ε α) (params : Values) (s : σ) :
    (Option α × Option ε) × σ :=
  match c.SignedCall "GET" path params s with
  | ((_, some err), s1) => ((none, some err), s1)
  | ((body, none), s1) =>
    match unmarshal body with
    | .error err => ((none, some err), s1)
    | .ok result => ((some result, none), s1)

/-- The closure `cb` of a public list operation: `retrieve` with its result
converted to the interface type `responsePage`. -/
def Client.cb {S ε σ α : Type} (a : Asserts S α)
    (retrieve : Values → σ → (Option α × Option ε) × σ) : pageFetcher S ε σ :=
  fun params s =>
    match retrieve params s with
    | ((result, err), s1) => (⟨result.map a.wrap, err⟩, s1)

/-- The body shared by the public list operations: the options are applied to
fresh parameters, the driver is run with the closure `cb`, an error
is returned with a nil result, and the page is asserted to be of the
operation's result type. The closure always wraps a pointer of that type, so a
nil pointer passes the assertion. The outcome is `none` when the fuel ran out. -/
def Client.listOperation {S ε σ α : Type} (a : Asserts S α)
    (retrieve : Values → σ → (Option α × Option ε) × σ)
    (options : List (Values → Values)) (fuel : Nat) (s : σ) : Option (Outcome α ε) :=
  let params := options.foldl (fun params o => o params) Values.empty
  (retrieveItems (Client.cb a retrieve) fuel params s).outcome.map fun outcome =>
    match outcome with
    | .panicked cause => .panicked cause
    | .returned _ (some err) => .returned none (some err)
    | .returned none none => .returned none none
    | .returned (some response) none =>
      match a.assert response with
      | some result => .returned (some result) none
      | none => .panicked .typeAssertion

/-- Method `(*Client).retrieveUsers`. -/
def Client.retrieveUsers {S ε σ : Type} (c : Client S ε σ) :
    Values → σ → (Option (GetUsersResult S) × Option ε) × σ :=
  c.retrieveList "/admin/v1/users" c.unmarshalUsers

/-- Method `(*Client).GetUsers`. -/
def Client.GetUsers {S ε σ : Type} (c : Client S ε σ) :
    List (Values → Values) → Nat → σ → Option (Outcome (GetUsersResult S) ε) :=
  Client.listOperation (asUsers S) c.retrieveUsers

/-- Method `(*Client).retrieveGroups`. -/
def Client.retrieveGroups {S ε σ : Type} (c : Client S ε σ) :
    Values → σ → (Option (GetGroupsResult S) × Option ε) × σ :=
  c.retrieveList "/admin/v1/groups" c.unmarshalGroups

/-- Method `(*Client).GetGroups`. -/
def Client.GetGroups {S ε σ : Type} (c : Client S ε σ) :
    List (Values → Values) → Nat → σ → Option (Outcome (GetGroupsResult S) ε) :=
  Client.listOperation (asGroups S) c.retrieveGroups

/-- Method `(*Client).retrievePhones`. -/
def Client.retrievePhones {S ε σ : Type} (c : Client S ε σ) :
    Values → σ → (Option (GetPhonesResult S) × Option ε) × σ :=
  c.retrieveList "/admin/v1/phones" c.unmarshalPhones

/-- Method `(*Client).GetPhones`. -/
def Client.GetPhones {S ε σ : Type} (c : Client S ε σ) :
    List (Values → Values) → Nat → σ → Option (Outcome (GetPhonesResult S) ε) :=
  Client.listOperation (asPhones S) c.retrievePhones

/-- Method `(*Client).retrieveTokens`. -/
def Client.retrieveTokens {S ε σ : Type} (c : Client S ε σ) :
    Values → σ → (Option (GetTokensResult S) × Option ε) × σ :=
  c.retrieveList "/admin/v1/tokens" c.unmarshalTokens

/-- Method `(*Client).GetTokens`. -/
def Client.GetTokens {S ε σ : Type} (c : Client S ε σ) :
    List (Values → Values) → Nat → σ → Option (Outcome (GetTokensResult S) ε) :=
  Client.listOperation (asTokens S) c.retrieveTokens

/-- Method `(*Client).retrieveU2FTokens`. -/
def Client.retrieveU2FTokens {S ε σ : Type} (c : Client S ε σ) :
    Values → σ → (Option (GetU2FTokensResult S) × Option ε) × σ :=
  c.retrieveList "/admin/v1/u2ftokens" c.unmarshalU2FTokens

/-- Method `(*Client).GetU2FTokens`. -/
def Client.GetU2FTokens {S ε σ : Type} (c : Client S ε σ) :
    List (Values → Values) → Nat → σ → Option (Outcome (GetU2FTokensResult S) ε) :=
  Client.listOperation (asU2FTokens S) c.retrieveU2FTokens

/-- Method `(*Client).retrieveIntegrations`. -/
def Client.retrieveIntegrations {S ε σ : Type} (c : Client S ε σ) :
    Values → σ → (Option (GetIntegrationsResult S) × Option ε) × σ :=
  c.retrieveList "/admin/v1/integrations" c.unmarshalIntegrations

/-- Method `(*Client).GetIntegrations`. -/
def Client.GetIntegrations {S ε σ : Type} (c : Client S ε σ) :
    List (Values → Values) → Nat → σ → Option (Outcome (GetIntegrationsResult S) ε) :=
  Client.listOperation (asIntegrations S) c.retrieveIntegrations

/-- Method `(*Client).retrieveAdministrators`. -/
def Client.retrieveAdministrators {S ε σ : Type} (c : Client S ε σ) :
    Values → σ → (Option (GetAdministratorsResult S) × Option ε) × σ :=
  c.retrieveList "/admin/v1/admins" c.unmarshalAdministrators

/-- Method `(*Client).GetAdministrators`. -/
def Client.GetAdministrators {S ε σ : Type} (c : Client S ε σ) :
    List (Values → Values) → Nat → σ → Option (Outcome (GetAdministratorsResult S) ε) :=
  Client.listOperation (asAdministrators S) c.retrieveAdministrators

/-- Method `(*Client).retrieveAdministrativeUnits`. -/
def Client.retrieveAdministrativeUnits {S ε σ : Type} (c : Client S ε σ) :
    Values → σ → (Option (GetAdministrativeUnitsResult S) × Option ε) × σ :=
  c.retrieveList "/admin/v1/administrative_units" c.unmarshalAdministrativeUnits

/-- Method `(*Client).GetAdministrativeUnits`. -/
def Client.GetAdministrativeUnits {S ε σ : Type} (c : Client S ε σ) :
    List (Values → Values) → Nat → σ → Option (Outcome (GetAdministrativeUnitsResult S) ε) :=
  Client.listOperation (asAdministrativeUnits S) c.retrieveAdministrativeUnits

/-- Method `(*Client).retrieveUserGroups`. -/
def Client.retrieveUserGroups {S ε σ : Type} (c : Client S ε σ) (userID : String) :
    Values → σ → (Option (GetGroupsResult S) × Option ε) × σ :=
  c.retrieveList ("/admin/v1/users/" ++ userID ++ "/groups") c.unmarshalGroups

/-- Method `(*Client).GetUserGroups`. -/
def Client.GetUserGroups {S ε σ : Type} (c : Client S ε σ) (userID : String) :
    List (Values → Values) → Nat → σ → Option (Outcome (GetGroupsResult S) ε) :=
  Client.listOperation (asGroups S) (c.retrieveUserGroups userID)

/-- Method `(*Client).retrieveUserPhones`. -/
def Client.retrieveUserPhones {S ε σ : Type} (c : Client S ε σ) (userID : String) :
    Values → σ → (Option (GetPhonesResult S) × Option ε) × σ :=
  c.retrieveList ("/admin/v1/users/" ++ userID ++ "/phones") c.unmarshalPhones

/-- Method `(*Client).GetUserPhones`. -/
def Client.GetUserPhones {S ε σ : Type} (c : Client S ε σ) (userID : String) :
    List (Values → Values) → Nat → σ → Option (Outcome (GetPhonesResult S) ε) :=
  Client.listOperation (asPhones S) (c.retrieveUserPhones userID)

/-- Method `(*Client).retrieveUserTokens`. -/
def Client.retrieveUserTokens {S ε σ : Type} (c : Client S ε σ) (userID : String) :
    Values → σ → (Option (GetTokensResult S) × Option ε) × σ :=
  c.retrieveList ("/admin/v1/users/" ++ userID ++ "/tokens") c.unmarshalTokens

/-- Method `(*Client).GetUserTokens`. -/
def Client.GetUserTokens {S ε σ : Type} (c : Client S ε σ) (userID : String) :
    List (Values → Values) → Nat → σ → Option (Outcome (GetTokensResult S) ε) :=
  Client.listOperation (asTokens S) (c.retrieveUserTokens userID)

/-- Method `(*Client).retrieveUserU2FTokens`. -/
def Client.retrieveUserU2FTokens {S ε σ : Type} (c : Client S ε σ) (userID : String) :
    Values → σ → (Option (GetU2FTokensResult S) × Option ε) × σ :=
  c.retrieveList ("/admin/v1/users/" ++ userID ++ "/u2ftokens") c.unmarshalU2FTokens

/-- Method `(*Client).GetUserU2FTokens`. -/
def Client.GetUserU2FTokens {S ε σ : Type} (c : Client S ε σ) (userID : String) :
    List (Values → Values) → Nat → σ → Option (Outcome (GetU2FTokensResult S) ε) :=
  Client.listOperation (asU2FTokens S) (c.retrieveUserU2FTokens userID)

/-! ## Common URL options -/

/-- Go's `strconv.FormatUint(i, base)`: the digits of `i` in the given base,
most significant first, "0" for zero. -/
def FormatUint (i base : Nat) : String :=
  (Nat.toDigits base i).asString

/-- Limit sets the optional limit parameter for an API request. -/
def Limit (limit : Nat) : Values → Values :=
  fun opts => opts.Set "limit" (FormatUint limit 10)

/-- Offset sets the optional offset parameter for an API request. -/
def Offset (offset : Nat) : Values → Values :=
  fun opts => opts.Set "offset" (FormatUint offset 10)

/-- GetUsersUsername sets the optional username parameter for a GetUsers
request. -/
def GetUsersUsername (name : String) : Values → Values :=
  fun opts => opts.Set "username" name

/-! ## `User.URLValues` -/

/-- The value of a field of `User` as reflection sees it, with its Go type. -/
inductive FieldValue where
  | ptrString (p : Option String)
  | mapStringString (m : Option (List (String × String)))
  | uint64 (n : Nat)
  | string (s : String)
  | groups (xs : List Group)
  | bool (b : Bool)
  | ptrUint64 (p : Option Nat)
  | phones (xs : List Phone)
  | tokens (xs : List Token)

/-- The fields of `User` in the order of their declaration, each with its `url`
tag (the empty string when it has none) and its value. -/
def User.fields : User → List (String × FieldValue)
  | .mk Alias1 Alias2 Alias3 Alias4 Aliases Created Email FirstName Groups IsEnrolled
      LastDirectorySync LastLogin LastName Notes Phones RealName Status Tokens UserID
      Username =>
    [("alias1", .ptrString Alias1), ("alias2", .ptrString Alias2),
      ("alias3", .ptrString Alias3), ("alias4", .ptrString Alias4),
      ("aliases", .mapStringString Aliases), ("", .uint64 Created),
      ("email", .string Email), ("firstname", .ptrString FirstName),
      ("", .groups Groups), ("", .bool IsEnrolled),
      ("", .ptrUint64 LastDirectorySync), ("", .ptrUint64 LastLogin),
      ("lastname", .ptrString LastName), ("notes", .string Notes),
      ("", .phones Phones), ("realname", .ptrString RealName),
      ("status", .string Status), ("", .tokens Tokens), ("", .string UserID),
      ("username", .string Username)]

/-- The test `v.Field(i).Interface() == reflect.Zero(v.Field(i).Type()).Interface()`:
a comparison of two interface values of one dynamic type. Pointers compare by
address, so a pointer is equal to the zero value exactly when it is nil; for a
map or a slice type the comparison panics, whatever the two values are. -/
def FieldValue.equalsZero : FieldValue → Except Panic Bool
  | .ptrString p => .ok p.isNone
  | .mapStringString _ => .error .uncomparable
  | .uint64 n => .ok (decide (n = 0))
  | .string s => .ok (decide (s = ""))
  | .groups _ => .error .uncomparable
  | .bool b => .ok (!b)
  | .ptrUint64 p => .ok p.isNone
  | .phones _ => .error .uncomparable
  | .tokens _ => .error .uncomparable

/-- The text `val` of a field: `fmt.Sprintf("%v", v.Field(i).Elem())` for a field
of pointer kind, `fmt.Sprintf("%v", v.Field(i))` otherwise. `Sprintf` is the
formatting of the standard library; the element of a nil pointer is the zero
`reflect.Value`, here `none`. -/
def FieldValue.text (Sprintf : Option FieldValue → String) : FieldValue → String
  | .ptrString p => Sprintf (p.map .string)
  | .ptrUint64 p => Sprintf (p.map .uint64)
  | v => Sprintf (some v)

/-- The loop of `URLValues` over the fields that are left, `params` being the map
built so far. -/
def URLValuesLoop (Sprintf : Option FieldValue → String) :
    List (String × FieldValue) → Values → Except Panic Values
  | [], params => .ok params
  | (tag, v) :: rest, params =>
    if tag = "" then URLValuesLoop Sprintf rest params
    else
      match v.equalsZero with
      | .error cause => .error cause
      | .ok true => URLValuesLoop Sprintf rest params
      | .ok false => URLValuesLoop Sprintf rest (params.Set tag (v.text Sprintf))

/-- Method `(*User).URLValues`; a run-time panic is an `error`. -/
def User.URLValues (Sprintf : Option FieldValue → String) (u : User) : Except Panic Values :=
  URLValuesLoop Sprintf u.fields Values.empty

/-! ## Vocabulary of the statements -/

/-- The concrete result types, which are also the dynamic types of the slices
passed to `appendResponse`. -/
inductive Kind where
  | users
  | groups
  | phones
  | tokens
  | u2fTokens
  | integrations
  | administrators
  | administrativeUnits
deriving DecidableEq, Repr

/-- A record of any of the eight resource types. -/
inductive Item where
  | user (x : User)
  | group (x : Group)
  | phone (x : Phone)
  | token (x : Token)
  | u2fToken (x : U2FToken)
  | integration (x : Integration)
  | administrator (x : Administrator)
  | administrativeUnit (x : AdministrativeUnit)

/-- The dynamic type of a slice of items. -/
def ResponseItems.kind : ResponseItems → Kind
  | .users _ => .users
  | .groups _ => .groups
  | .phones _ => .phones
  | .tokens _ => .tokens
  | .u2fTokens _ => .u2fTokens
  | .integrations _ => .integrations
  | .administrators _ => .administrators
  | .administrativeUnits _ => .administrativeUnits

/-- The records of a slice of items, in order. -/
def ResponseItems.elems : ResponseItems → List Item
  | .users xs => xs.map .user
  | .groups xs => xs.map .group
  | .phones xs => xs.map .phone
  | .tokens xs => xs.map .token
  | .u2fTokens xs => xs.map .u2fToken
  | .integrations xs => xs.map .integration
  | .administrators xs => xs.map .administrator
  | .administrativeUnits xs => xs.map .administrativeUnit

/-- The concrete type of a page. -/
def ResponsePage.kind {S : Type} (page : ResponsePage S) : Kind :=
  page.getResponse.kind

/-- The items of a page, in order. -/
def ResponsePage.items {S : Type} (page : ResponsePage S) : List Item :=
  page.getResponse.elems

/-- The pages a run fetched, in the order it fetched them. -/
def Run.pages {S ε σ : Type} (r : Run S ε σ) : List (ResponsePage S) :=
  r.calls.filterMap (·.result.page)

/-- The parameters of the first fetch call in auto mode: the caller's, with
`offset` defaulted to "0" and `limit` set to "100". -/
def autoParams (params : Values) : Values :=
  (if params.Get "offset" = "" then params.Set "offset" "0" else params).Set "limit" "100"

/-- The fetch function, called in state `s` with `params` and then again and
again with `offset` advanced to the cursor of the page it just returned,
succeeds with exactly the pages listed, of which the last is the first one
to carry an empty `next_offset`. -/
def cursorChain {S ε σ : Type} (fetcher : pageFetcher S ε σ) :
    Values → σ → List (ResponsePage S) → Prop
  | _, _, [] => False
  | params, s, [last] =>
    (fetcher params s).1 = ⟨some last, none⟩ ∧ last.metadata.NextOffset = ""
  | params, s, page :: next :: rest =>
    (fetcher params s).1 = ⟨some page, none⟩ ∧ page.metadata.NextOffset ≠ "" ∧
      cursorChain fetcher (params.Set "offset" page.metadata.NextOffset)
        (fetcher params s).2 (next :: rest)

/-- The fetch function, called in state `s` with `params` and then with `offset`
advanced from page to page, succeeds with the pages listed, each carrying a
non-empty `next_offset`, and fails with the error `e` on the call after them. -/
def failsAfter {S ε σ : Type} (fetcher : pageFetcher S ε σ) (e : ε) :
    Values → σ → List (ResponsePage S) → Prop
  | params, s, [] => (fetcher params s).1.err = some e
  | params, s, page :: rest =>
    (fetcher params s).1 = ⟨some page, none⟩ ∧ page.metadata.NextOffset ≠ "" ∧
      failsAfter fetcher e (params.Set "offset" page.metadata.NextOffset)
        (fetcher params s).2 rest

/-- The fetch call `later` was passed, as its `offset`, the `next_offset` of the
page that the successful fetch call `earlier` returned. -/
def advances {S ε : Type} (earlier later : Call S ε) : Prop :=
  ∃ page, earlier.result.page = some page ∧ earlier.result.err = none ∧
    later.params "offset" = some [page.metadata.NextOffset]

/-- The status part of a page. -/
def ResponsePage.statResult {S : Type} : ResponsePage S → S
  | .users result => result.StatResult
  | .groups result => result.StatResult
  | .phones result => result.StatResult
  | .tokens result => result.StatResult
  | .u2fTokens result => result.StatResult
  | .integrations result => result.StatResult
  | .administrators result => result.StatResult
  | .administrativeUnits result => result.StatResult

/-- The number a string of decimal digits denotes. -/
def decimalValue (text : String) : Nat :=
  text.data.foldl (fun acc c => 10 * acc + (c.toNat - 48)) 0

/-- The fetch function, in every state and for all parameters, succeeds with a
page that carries a non-empty `next_offset`. -/
def alwaysContinues {S ε σ : Type} (fetcher : pageFetcher S ε σ) : Prop :=
  ∀ params s, ∃ page, (fetcher params s).1 = ⟨some page, none⟩ ∧
    page.metadata.NextOffset ≠ ""

/-- The fetch function, in every state and for all parameters, succeeds with a
page of the given type that carries a non-empty `next_offset`. -/
def neverEnds {S ε σ : Type} (fetcher : pageFetcher S ε σ) (kind : Kind) : Prop :=
  ∀ params s, ∃ page, (fetcher params s).1 = ⟨some page, none⟩ ∧
    page.metadata.NextOffset ≠ "" ∧ page.kind = kind

/-! ## Test doubles -/

/-- A fetch function that replays a script: each call returns the next scripted
result; once the script is used up it returns a nil page and a nil error. -/
def scripted {S ε : Type} : pageFetcher S ε (List (FetchResult S ε))
  | _, [] => (⟨none, none⟩, [])
  | _, r :: rest => (r, rest)

/-- A group named `name`, every other field zero. -/
def groupNamed (name : String) : Group :=
  ⟨"", "", false, name, false, false, "", false⟩

/-- A page of groups with the given items and `next_offset`. -/
def groupsPage (names : List String) (next : String) : ResponsePage Unit :=
  .groups { Metadata := ⟨next, "", ""⟩, StatResult := (), Response := names.map groupNamed }

/-- A successful fetch of `groupsPage names next`. -/
def groupsOk (names : List String) (next : String) : FetchResult Unit String :=
  ⟨some (groupsPage names next), none⟩

/-- A failed fetch: a nil page and the error `e`. -/
def fetchFails (e : String) : FetchResult Unit String :=
  ⟨none, some e⟩

/-- The script of three pages `[A, B]`, `[C, D]`, `[E]` with `next_offset`
"10", "20" and "". -/
def threePages : List (FetchResult Unit String) :=
  [groupsOk ["A", "B"] "10", groupsOk ["C", "D"] "20", groupsOk ["E"] ""]

/-- A client whose transport replays a script of (body, error) responses, and
which decodes a body of one byte as an empty users page without a cursor, a
longer body as an empty users page with the cursor "10", and nothing else. -/
def stubClient : Client Unit String (List (List UInt8 × Option String)) where
  SignedCall := fun _ _ _ s =>
    match s with
    | [] => (([], some "no response left"), [])
    | response :: rest => (response, rest)
  unmarshalUsers := fun body =>
    match body with
    | [] => .error "unexpected end of JSON input"
    | [_] => .ok { Metadata := ⟨"", "", ""⟩, StatResult := (), Response := [] }
    | _ :: _ :: _ => .ok { Metadata := ⟨"10", "", ""⟩, StatResult := (), Response := [] }
  unmarshalGroups := fun _ => .error "not a groups response"
  unmarshalPhones := fun _ => .error "not a phones response"
  unmarshalTokens := fun _ => .error "not a tokens response"
  unmarshalU2FTokens := fun _ => .error "not a U2F tokens response"
  unmarshalIntegrations := fun _ => .error "not an integrations response"
  unmarshalAdministrators := fun _ => .error "not an administrators response"
  unmarshalAdministrativeUnits := fun _ => .error "not an administrative units response"

/-- The names of the items of a page of groups (empty for any other page). -/
def groupNames : Option (ResponsePage Unit) → List String
  | some (.groups result) => result.Response.map (·.Name)
  | _ => []

/-- The names of the items a run returned (empty when it returned no page). -/
def returnedNames {σ : Type} (r : Run Unit String σ) : List String :=
  match r.outcome with
  | some (.returned page _) => groupNames page
  | _ => []

/-- An empty page of users with the given `next_offset`. -/
def usersPage (next : String) : ResponsePage Unit :=
  .users { Metadata := ⟨next, "", ""⟩, StatResult := (), Response := [] }

/-- The script of a page of groups with `next_offset` "10" followed by a page of
users with an empty `next_offset`. -/
def mixedPages : List (FetchResult Unit String) :=
  [groupsOk ["A"] "10", ⟨some (usersPage ""), none⟩]

/-- A fetch function that never ends and returns in turn a page of groups with
`next_offset` "10" and a page of users with `next_offset` "20". -/
def alternating : pageFetcher Unit String Bool :=
  fun _ odd => (if odd then ⟨some (usersPage "20"), none⟩ else groupsOk ["A"] "10", !odd)

/-- A fetch function whose cursor cycles "10", "20", "10", ... and never ends. -/
def cycling : pageFetcher Unit String Bool :=
  fun _ odd => (groupsOk ["A"] (if odd then "20" else "10"), !odd)

/-- The zero value of `User`. -/
def zeroUser : User :=
  .mk none none none none none 0 "" none [] false none none none "" [] none "" [] "" ""

/-- A user with a username, an e-mail address and a non-empty `Aliases` map. -/
def aliceUser : User :=
  .mk none none none none (some [("alias1", "al")]) 0 "alice@example.com" none [] false
    none none none "" [] none "" [] "" "alice"

/-- A user with a username and nothing else: every other field is zero, the
`Aliases` map is nil. -/
def bobUser : User :=
  .mk none none none none none 0 "" none [] false none none none "" [] none "" [] "" "bob"

/-- A stand-in for `fmt.Sprintf("%v", ·)` that is right on strings. -/
def stubSprintf : Option FieldValue → String
  | some (.string s) => s
  | _ => "?"

end Admin



namespace Admin

/-! ## Request parameters: `Get` after `Set` -/

theorem Values.Get_Set_same (v : Values) (key value : String) :
    (v.Set key value).Get key = value := by
  simp [Values.Get, Values.Set]

theorem Values.Get_Set_other (v : Values) {key other : String} (value : String)
    (h : other ≠ key) : (v.Set key value).Get other = v.Get other := by
  simp [Values.Get, Values.Set, h]

/-! ## The merge step -/

section Merge

variable {S : Type}

/-- A merge that does not panic puts the receiver's items first, then the
argument's, and leaves the receiver's metadata and type alone. -/
theorem ResponsePage.appendResponse_eq_some {page merged : ResponsePage S}
    {items : ResponseItems} (h : page.appendResponse items = some merged) :
    merged.items = page.items ++ items.elems ∧ merged.metadata = page.metadata ∧
      merged.kind = page.kind ∧ items.kind = page.kind := by
  cases page <;> cases items <;>
    simp [ResponsePage.appendResponse, GetUsersResult.appendResponse,
      GetGroupsResult.appendResponse, GetPhonesResult.appendResponse,
      GetTokensResult.appendResponse, GetU2FTokensResult.appendResponse,
      GetIntegrationsResult.appendResponse, GetAdministratorsResult.appendResponse,
      GetAdministrativeUnitsResult.appendResponse] at h <;>
    subst h <;>
    simp [ResponsePage.items, ResponsePage.kind, ResponsePage.metadata,
      ResponsePage.getResponse, ResponseItems.elems, ResponseItems.kind,
      ListResult.metadata, GetUsersResult.getResponse, GetGroupsResult.getResponse,
      GetPhonesResult.getResponse, GetTokensResult.getResponse,
      GetU2FTokensResult.getResponse, GetIntegrationsResult.getResponse,
      GetAdministratorsResult.getResponse, GetAdministrativeUnitsResult.getResponse]

/-- The merge panics exactly when the slice handed over is of another type
than the receiver's. -/
theorem ResponsePage.appendResponse_eq_none_iff (page : ResponsePage S)
    (items : ResponseItems) :
    page.appendResponse items = none ↔ items.kind ≠ page.kind := by
  cases page <;> cases items <;>
    simp [ResponsePage.appendResponse, GetUsersResult.appendResponse,
      GetGroupsResult.appendResponse, GetPhonesResult.appendResponse,
      GetTokensResult.appendResponse, GetU2FTokensResult.appendResponse,
      GetIntegrationsResult.appendResponse, GetAdministratorsResult.appendResponse,
      GetAdministrativeUnitsResult.appendResponse, ResponsePage.kind,
      ResponsePage.getResponse, ResponseItems.kind, GetUsersResult.getResponse,
      GetGroupsResult.getResponse, GetPhonesResult.getResponse,
      GetTokensResult.getResponse, GetU2FTokensResult.getResponse,
      GetIntegrationsResult.getResponse, GetAdministratorsResult.getResponse,
      GetAdministrativeUnitsResult.getResponse]

/-- Pages of one type always merge. -/
theorem ResponsePage.appendResponse_of_kind {page other : ResponsePage S}
    (h : other.kind = page.kind) :
    ∃ merged, page.appendResponse other.getResponse = some merged := by
  cases hm : page.appendResponse other.getResponse with
  | some merged => exact ⟨merged, rfl⟩
  | none => exact absurd h ((ResponsePage.appendResponse_eq_none_iff _ _).1 hm)

end Merge

/-! ## Unfolding the loop -/

section Loop

variable {S ε σ : Type}

theorem retrieveLoop_done (fetcher : pageFetcher S ε σ) (fuel : Nat) {params : Values}
    (accumulator : ResponsePage S) (s : σ) (h : params.Get "offset" = "") :
    retrieveLoop fetcher fuel params accumulator s
      = ⟨some (.returned (some accumulator) none), [], s⟩ := by
  unfold retrieveLoop
  simp [h]

theorem retrieveLoop_zero (fetcher : pageFetcher S ε σ) {params : Values}
    (accumulator : ResponsePage S) (s : σ) (h : params.Get "offset" ≠ "") :
    retrieveLoop fetcher 0 params accumulator s = ⟨none, [], s⟩ := by
  unfold retrieveLoop
  simp [h]

theorem retrieveLoop_err (fetcher : pageFetcher S ε σ) (fuel : Nat) {params : Values}
    (accumulator : ResponsePage S) (s : σ) (h : params.Get "offset" ≠ "") {err : ε}
    (he : (fetcher params s).1.err = some err) :
    retrieveLoop fetcher (fuel + 1) params accumulator s
      = ⟨some (.returned none (some err)), [⟨params, (fetcher params s).1⟩],
          (fetcher params s).2⟩ := by
  rw [retrieveLoop]
  simp only [h, ne_eq, not_false_eq_true, if_true]
  rcases hf : fetcher params s with ⟨next, s1⟩
  rw [hf] at he
  simp only at he
  simp [he]

theorem retrieveLoop_nil (fetcher : pageFetcher S ε σ) (fuel : Nat) {params : Values}
    (accumulator : ResponsePage S) (s : σ) (h : params.Get "offset" ≠ "")
    (he : (fetcher params s).1.err = none) (hp : (fetcher params s).1.page = none) :
    retrieveLoop fetcher (fuel + 1) params accumulator s
      = ⟨some (.panicked .nilDereference), [⟨params, (fetcher params s).1⟩],
          (fetcher params s).2⟩ := by
  rw [retrieveLoop]
  simp only [h, ne_eq, not_false_eq_true, if_true]
  rcases hf : fetcher params s with ⟨next, s1⟩
  rw [hf] at he hp
  simp only at he hp
  simp [he, hp]

theorem retrieveLoop_mismatch (fetcher : pageFetcher S ε σ) (fuel : Nat)
    {params : Values} (accumulator : ResponsePage S) (s : σ)
    (h : params.Get "offset" ≠ "") (he : (fetcher params s).1.err = none)
    {nextResult : ResponsePage S} (hp : (fetcher params s).1.page = some nextResult)
    (hm : nextResult.appendResponse accumulator.getResponse = none) :
    retrieveLoop fetcher (fuel + 1) params accumulator s
      = ⟨some (.panicked .typeAssertion), [⟨params, (fetcher params s).1⟩],
          (fetcher params s).2⟩ := by
  rw [retrieveLoop]
  simp only [h, ne_eq, not_false_eq_true, if_true]
  rcases hf : fetcher params s with ⟨next, s1⟩
  rw [hf] at he hp
  simp only at he hp
  simp [he, hp, hm]

theorem retrieveLoop_step (fetcher : pageFetcher S ε σ) (fuel : Nat) {params : Values}
    (accumulator : ResponsePage S) (s : σ) (h : params.Get "offset" ≠ "")
    (he : (fetcher params s).1.err = none)
    {nextResult merged : ResponsePage S} (hp : (fetcher params s).1.page = some nextResult)
    (hm : nextResult.appendResponse accumulator.getResponse = some merged) :
    retrieveLoop fetcher (fuel + 1) params accumulator s
      = (retrieveLoop fetcher fuel (params.Set "offset" merged.metadata.NextOffset) merged
          (fetcher params s).2).after ⟨params, (fetcher params s).1⟩ := by
  rw [retrieveLoop]
  simp only [h, ne_eq, not_false_eq_true, if_true]
  rcases hf : fetcher params s with ⟨next, s1⟩
  rw [hf] at he hp
  simp only at he hp
  simp [he, hp, hm]

/-- The five ways one turn of the loop can go, once it is entered with fuel. -/
theorem retrieveLoop_cases (fetcher : pageFetcher S ε σ) (fuel : Nat) {params : Values}
    (accumulator : ResponsePage S) (s : σ) (h : params.Get "offset" ≠ "") :
    (∃ err, (fetcher params s).1.err = some err ∧
      retrieveLoop fetcher (fuel + 1) params accumulator s
        = ⟨some (.returned none (some err)), [⟨params, (fetcher params s).1⟩],
            (fetcher params s).2⟩) ∨
    ((fetcher params s).1.err = none ∧ (fetcher params s).1.page = none ∧
      retrieveLoop fetcher (fuel + 1) params accumulator s
        = ⟨some (.panicked .nilDereference), [⟨params, (fetcher params s).1⟩],
            (fetcher params s).2⟩) ∨
    (∃ nextResult, (fetcher params s).1.err = none ∧
      (fetcher params s).1.page = some nextResult ∧
      nextResult.appendResponse accumulator.getResponse = none ∧
      retrieveLoop fetcher (fuel + 1) params accumulator s
        = ⟨some (.panicked .typeAssertion), [⟨params, (fetcher params s).1⟩],
            (fetcher params s).2⟩) ∨
    (∃ nextResult merged, (fetcher params s).1.err = none ∧
      (fetcher params s).1.page = some nextResult ∧
      nextResult.appendResponse accumulator.getResponse = some merged ∧
      retrieveLoop fetcher (fuel + 1) params accumulator s
        = (retrieveLoop fetcher fuel (params.Set "offset" merged.metadata.NextOffset)
            merged (fetcher params s).2).after ⟨params, (fetcher params s).1⟩) := by
  cases he : (fetcher params s).1.err with
  | some err => exact Or.inl ⟨err, rfl, retrieveLoop_err fetcher fuel accumulator s h he⟩
  | none =>
    cases hp : (fetcher params s).1.page with
    | none => exact Or.inr (Or.inl ⟨rfl, rfl, retrieveLoop_nil fetcher fuel accumulator s h he hp⟩)
    | some nextResult =>
      cases hm : nextResult.appendResponse accumulator.getResponse with
      | none =>
        exact Or.inr (Or.inr (Or.inl ⟨nextResult, rfl, rfl, hm,
          retrieveLoop_mismatch fetcher fuel accumulator s h he hp hm⟩))
      | some merged =>
        exact Or.inr (Or.inr (Or.inr ⟨nextResult, merged, rfl, rfl, hm,
          retrieveLoop_step fetcher fuel accumulator s h he hp hm⟩))

end Loop

/-! ## Unfolding the driver -/

section Driver

variable {S ε σ : Type}

@[simp] theorem Run.after_outcome (c : Call S ε) (r : Run S ε σ) :
    (r.after c).outcome = r.outcome := rfl

@[simp] theorem Run.after_calls (c : Call S ε) (r : Run S ε σ) :
    (r.after c).calls = c :: r.calls := rfl

@[simp] theorem Run.after_state (c : Call S ε) (r : Run S ε σ) :
    (r.after c).state = r.state := rfl

theorem Run.after_pages (c : Call S ε) (r : Run S ε σ) {page : ResponsePage S}
    (h : c.result.page = some page) : (r.after c).pages = page :: r.pages := by
  simp [Run.pages, List.filterMap_cons, h]

/-- Defaulting `offset` does not touch `limit`. -/
theorem Get_limit_defaulted (params : Values) :
    (if params.Get "offset" = "" then params.Set "offset" "0" else params).Get "limit"
      = params.Get "limit" := by
  split
  · exact Values.Get_Set_other _ _ (by decide)
  · rfl

theorem retrieveItems_manual (fetcher : pageFetcher S ε σ) (fuel : Nat) {params : Values}
    (s : σ) (h : params.Get "limit" ≠ "") :
    retrieveItems fetcher fuel params s
      = ⟨some (.returned
            (fetcher (if params.Get "offset" = "" then params.Set "offset" "0" else params)
              s).1.page
            (fetcher (if params.Get "offset" = "" then params.Set "offset" "0" else params)
              s).1.err),
          [⟨(if params.Get "offset" = "" then params.Set "offset" "0" else params),
            (fetcher (if params.Get "offset" = "" then params.Set "offset" "0" else params)
              s).1⟩],
          (fetcher (if params.Get "offset" = "" then params.Set "offset" "0" else params)
            s).2⟩ := by
  unfold retrieveItems
  simp only [Get_limit_defaulted, h, if_false]

theorem retrieveItems_auto_err (fetcher : pageFetcher S ε σ) (fuel : Nat)
    {params : Values} (s : σ) (h : params.Get "limit" = "") {err : ε}
    (he : (fetcher (autoParams params) s).1.err = some err) :
    retrieveItems fetcher fuel params s
      = ⟨some (.returned none (some err)),
          [⟨autoParams params, (fetcher (autoParams params) s).1⟩],
          (fetcher (autoParams params) s).2⟩ := by
  unfold retrieveItems
  simp only [Get_limit_defaulted, h, if_true]
  unfold autoParams at he ⊢
  rcases hf : fetcher _ s with ⟨first, s1⟩
  rw [hf] at he
  simp only at he
  simp [he]

theorem retrieveItems_auto_nil (fetcher : pageFetcher S ε σ) (fuel : Nat)
    {params : Values} (s : σ) (h : params.Get "limit" = "")
    (he : (fetcher (autoParams params) s).1.err = none)
    (hp : (fetcher (autoParams params) s).1.page = none) :
    retrieveItems fetcher fuel params s
      = ⟨some (.panicked .nilDereference),
          [⟨autoParams params, (fetcher (autoParams params) s).1⟩],
          (fetcher (autoParams params) s).2⟩ := by
  unfold retrieveItems
  simp only [Get_limit_defaulted, h, if_true]
  unfold autoParams at he hp ⊢
  rcases hf : fetcher _ s with ⟨first, s1⟩
  rw [hf] at he hp
  simp only at he hp
  simp [he, hp]

theorem retrieveItems_auto_ok (fetcher : pageFetcher S ε σ) (fuel : Nat)
    {params : Values} (s : σ) (h : params.Get "limit" = "")
    (he : (fetcher (autoParams params) s).1.err = none)
    {accumulator : ResponsePage S}
    (hp : (fetcher (autoParams params) s).1.page = some accumulator) :
    retrieveItems fetcher fuel params s
      = (retrieveLoop fetcher fuel
          ((autoParams params).Set "offset" accumulator.metadata.NextOffset) accumulator
          (fetcher (autoParams params) s).2).after
          ⟨autoParams params, (fetcher (autoParams params) s).1⟩ := by
  unfold retrieveItems
  simp only [Get_limit_defaulted, h, if_true]
  unfold autoParams at he hp ⊢
  rcases hf : fetcher _ s with ⟨first, s1⟩
  rw [hf] at he hp
  simp only at he hp
  simp [he, hp]

end Driver

/-! ## What the loop accumulates -/

section Accumulation

variable {S ε σ : Type}

theorem flatten_reverse_perm {α : Type} (L : List (List α)) :
    L.reverse.flatten.Perm L.flatten := by
  induction L with
  | nil => exact List.Perm.refl _
  | cons l L ih =>
    rw [List.reverse_cons, List.flatten_append, List.flatten_cons, List.flatten_cons,
      List.flatten_nil, List.append_nil]
    exact List.perm_append_comm.trans (List.Perm.append_left l ih)

/-- When the loop returns a page, every fetch of the loop succeeded, and the
page holds the items of the pages fetched in the loop, the latest page first,
followed by the items the accumulator held on entry. -/
theorem retrieveLoop_returned (fetcher : pageFetcher S ε σ) (fuel : Nat) :
    ∀ (params : Values) (accumulator : ResponsePage S) (s : σ) (result : ResponsePage S)
      (err : Option ε),
      (retrieveLoop fetcher fuel params accumulator s).outcome
        = some (.returned (some result) err) →
      err = none ∧
      result.items
        = ((retrieveLoop fetcher fuel params accumulator s).pages.reverse.map
            ResponsePage.items).flatten ++ accumulator.items ∧
      ∀ c ∈ (retrieveLoop fetcher fuel params accumulator s).calls,
        c.result.err = none ∧ c.result.page ≠ none := by
  induction fuel with
  | zero =>
    intro params accumulator s result err h
    by_cases ho : params.Get "offset" = ""
    · rw [retrieveLoop_done fetcher 0 accumulator s ho] at h ⊢
      simp only [Option.some.injEq, Outcome.returned.injEq] at h
      obtain ⟨h1, h2⟩ := h
      subst h1
      simp [Run.pages, h2.symm]
    · rw [retrieveLoop_zero fetcher accumulator s ho] at h
      simp at h
  | succ fuel ih =>
    intro params accumulator s result err h
    by_cases ho : params.Get "offset" = ""
    · rw [retrieveLoop_done fetcher (fuel + 1) accumulator s ho] at h ⊢
      simp only [Option.some.injEq, Outcome.returned.injEq] at h
      obtain ⟨h1, h2⟩ := h
      subst h1
      simp [Run.pages, h2.symm]
    · rcases retrieveLoop_cases fetcher fuel accumulator s ho with
        ⟨e, _, heq⟩ | ⟨_, _, heq⟩ | ⟨_, _, _, _, heq⟩ | ⟨nextResult, merged, he, hp, hm, heq⟩
      · rw [heq] at h
        simp at h
      · rw [heq] at h
        simp at h
      · rw [heq] at h
        simp at h
      · rw [heq] at h ⊢
        rw [Run.after_outcome] at h
        obtain ⟨h1, h2, h3⟩ := ih _ _ _ _ _ h
        obtain ⟨hitems, -, -, -⟩ := ResponsePage.appendResponse_eq_some hm
        refine ⟨h1, ?_, ?_⟩
        · rw [Run.after_pages _ _ hp, h2, hitems]
          simp [List.append_assoc, ResponsePage.items]
        · intro c hc
          rw [Run.after_calls, List.mem_cons] at hc
          rcases hc with rfl | hc
          · exact ⟨he, by simp [hp]⟩
          · exact h3 c hc

/-- When the driver returns a page in auto mode, every fetch succeeded, and the
page holds the items of the fetched pages, the latest page first. -/
theorem retrieveItems_returned (fetcher : pageFetcher S ε σ) (fuel : Nat)
    {params : Values} (s : σ) (h : params.Get "limit" = "") {result : ResponsePage S}
    {err : Option ε}
    (hr : (retrieveItems fetcher fuel params s).outcome = some (.returned (some result) err)) :
    err = none ∧
    result.items
      = ((retrieveItems fetcher fuel params s).pages.reverse.map ResponsePage.items).flatten ∧
    ∀ c ∈ (retrieveItems fetcher fuel params s).calls,
      c.result.err = none ∧ c.result.page ≠ none := by
  cases he : (fetcher (autoParams params) s).1.err with
  | some e =>
    rw [retrieveItems_auto_err fetcher fuel s h he] at hr
    simp at hr
  | none =>
    cases hp : (fetcher (autoParams params) s).1.page with
    | none =>
      rw [retrieveItems_auto_nil fetcher fuel s h he hp] at hr
      simp at hr
    | some accumulator =>
      rw [retrieveItems_auto_ok fetcher fuel s h he hp] at hr ⊢
      rw [Run.after_outcome] at hr
      obtain ⟨h1, h2, h3⟩ := retrieveLoop_returned fetcher fuel _ _ _ _ _ hr
      refine ⟨h1, ?_, ?_⟩
      · rw [Run.after_pages _ _ hp, h2]
        simp
      · intro c hc
        rw [Run.after_calls, List.mem_cons] at hc
        rcases hc with rfl | hc
        · exact ⟨he, by simp [hp]⟩
        · exact h3 c hc

end Accumulation

/-! ## Order and completeness of the merged result -/

section Claims

variable {S ε σ : Type}

/-- C1 (auto-mode ordering), evaluated on the three-page scenario: with no limit
given the driver fetches the pages `[A, B]`, `[C, D]`, `[E]` in that order, at
offsets "0", "10", "20", and returns the items `[E, C, D, A, B]`, not the pages'
items in the order the pages were fetched. -/
theorem retrieveItems_three_pages_order :
    (retrieveItems scripted 2 Values.empty threePages).calls.map
        (fun c => (c.params.Get "offset", groupNames c.result.page))
      = [("0", ["A", "B"]), ("10", ["C", "D"]), ("20", ["E"])] ∧
    returnedNames (retrieveItems scripted 2 Values.empty threePages)
      = ["E", "C", "D", "A", "B"] ∧
    returnedNames (retrieveItems scripted 2 Values.empty threePages)
      ≠ ((retrieveItems scripted 2 Values.empty threePages).calls.map
          (fun c => groupNames c.result.page)).flatten := by
  decide

/-- C2 (manual-mode passthrough): when the caller has set `limit`, the driver
makes exactly one fetch call, with the caller's `limit`, and returns the page
and the error of that call as they are, whatever the fuel and whatever the
page's `next_offset`. -/
theorem retrieveItems_manual_passthrough (fetcher : pageFetcher S ε σ) (fuel : Nat)
    (params : Values) (s : σ) (h : params.Get "limit" ≠ "") :
    ∃ first : Values, first "limit" = params "limit" ∧
      (retrieveItems fetcher fuel params s).calls = [⟨first, (fetcher first s).1⟩] ∧
      (retrieveItems fetcher fuel params s).outcome
        = some (.returned (fetcher first s).1.page (fetcher first s).1.err) ∧
      (retrieveItems fetcher fuel params s).state = (fetcher first s).2 := by
  refine ⟨if params.Get "offset" = "" then params.Set "offset" "0" else params, ?_, ?_⟩
  · split
    · simp [Values.Set]
    · rfl
  · rw [retrieveItems_manual fetcher fuel s h]
    exact ⟨rfl, rfl, rfl⟩

/-- C2 at a concrete input: with limit "2" and a first page whose `next_offset`
is "10", one fetch is made and its page comes back with `next_offset` "10" and
its own two items. -/
theorem retrieveItems_manual_passthrough_witness :
    (Values.empty.Set "limit" "2").Get "limit" ≠ "" ∧
    (∃ first : Values, first "limit" = (Values.empty.Set "limit" "2") "limit" ∧
      (retrieveItems scripted 7 (Values.empty.Set "limit" "2") threePages).calls
        = [⟨first, (scripted first threePages).1⟩] ∧
      (retrieveItems scripted 7 (Values.empty.Set "limit" "2") threePages).outcome
        = some (.returned (scripted first threePages).1.page
            (scripted first threePages).1.err) ∧
      (retrieveItems scripted 7 (Values.empty.Set "limit" "2") threePages).state
        = (scripted first threePages).2) ∧
    (retrieveItems scripted 7 (Values.empty.Set "limit" "2") threePages).outcome
      = some (.returned (some (groupsPage ["A", "B"] "10")) none) :=
  ⟨by decide,
    retrieveItems_manual_passthrough scripted 7 (Values.empty.Set "limit" "2") threePages
      (by decide),
    rfl⟩

/-- C3 (completeness without deduplication): in auto mode, when the driver
returns a page, every fetch succeeded and the items of the returned page are a
permutation of the items of all fetched pages taken together, so that their
number is the sum of the page lengths. -/
theorem retrieveItems_complete (fetcher : pageFetcher S ε σ) (fuel : Nat)
    (params : Values) (s : σ) (result : ResponsePage S) (err : Option ε)
    (h : params.Get "limit" = "")
    (hr : (retrieveItems fetcher fuel params s).outcome
      = some (.returned (some result) err)) :
    (∀ c ∈ (retrieveItems fetcher fuel params s).calls,
      c.result.err = none ∧ c.result.page ≠ none) ∧
    result.items.Perm
      ((retrieveItems fetcher fuel params s).pages.flatMap ResponsePage.items) ∧
    result.items.length
      = ((retrieveItems fetcher fuel params s).pages.map (fun p => p.items.length)).sum := by
  obtain ⟨-, hitems, hcalls⟩ := retrieveItems_returned fetcher fuel s h hr
  have hperm : result.items.Perm
      ((retrieveItems fetcher fuel params s).pages.flatMap ResponsePage.items) := by
    rw [hitems, List.map_reverse, List.flatMap_def]
    exact flatten_reverse_perm _
  refine ⟨hcalls, hperm, ?_⟩
  rw [hperm.length_eq, List.flatMap_def, List.length_flatten, List.map_map]
  rfl

/-- C3 at a concrete input: the three pages `[A, B]`, `[C, D]`, `[E]` give a
result of five items. -/
theorem retrieveItems_complete_witness :
    Values.empty.Get "limit" = "" ∧
    (groupsPage ["E", "C", "D", "A", "B"] "").items.Perm
      ((retrieveItems scripted 2 Values.empty threePages).pages.flatMap
        ResponsePage.items) ∧
    (groupsPage ["E", "C", "D", "A", "B"] "").items.length = 2 + 2 + 1 :=
  ⟨by decide,
    (retrieveItems_complete scripted 2 Values.empty threePages
      (groupsPage ["E", "C", "D", "A", "B"] "") none (by decide) rfl).2.1,
    rfl⟩

/-! ## Termination and the number of fetch calls -/

theorem cursorChain_cons (fetcher : pageFetcher S ε σ) (params : Values) (s : σ)
    (page : ResponsePage S) (rest : List (ResponsePage S)) :
    cursorChain fetcher params s (page :: rest) ↔
      (fetcher params s).1 = ⟨some page, none⟩ ∧
      (rest = [] → page.metadata.NextOffset = "") ∧
      (rest ≠ [] → page.metadata.NextOffset ≠ "" ∧
        cursorChain fetcher (params.Set "offset" page.metadata.NextOffset)
          (fetcher params s).2 rest) := by
  cases rest with
  | nil => simp [cursorChain]
  | cons next rest => simp [cursorChain]

/-- The loop, entered with the cursor of the accumulator as `offset`, follows a
chain of pages of the accumulator's type to its end, one fetch per page. -/
theorem retrieveLoop_follows (fetcher : pageFetcher S ε σ) :
    ∀ (rest : List (ResponsePage S)) (fuel : Nat) (params : Values)
      (accumulator : ResponsePage S) (s : σ),
      (rest = [] → params.Get "offset" = "") →
      (rest ≠ [] → params.Get "offset" ≠ "" ∧ cursorChain fetcher params s rest) →
      (∀ p ∈ rest, p.kind = accumulator.kind) → rest.length ≤ fuel →
      (∃ result, (retrieveLoop fetcher fuel params accumulator s).outcome
        = some (.returned (some result) none)) ∧
      (retrieveLoop fetcher fuel params accumulator s).pages = rest ∧
      (retrieveLoop fetcher fuel params accumulator s).calls.length = rest.length := by
  intro rest
  induction rest with
  | nil =>
    intro fuel params accumulator s h0 _ _ _
    rw [retrieveLoop_done fetcher fuel accumulator s (h0 rfl)]
    exact ⟨⟨accumulator, rfl⟩, rfl, rfl⟩
  | cons page rest ih =>
    intro fuel params accumulator s _ h1 hkind hfuel
    obtain ⟨ho, hchain⟩ := h1 (List.cons_ne_nil _ _)
    obtain ⟨hfetch, hlast, hmore⟩ := (cursorChain_cons fetcher params s page rest).1 hchain
    cases fuel with
    | zero => simp at hfuel
    | succ fuel =>
      have he : (fetcher params s).1.err = none := by rw [hfetch]
      have hp : (fetcher params s).1.page = some page := by rw [hfetch]
      obtain ⟨merged, hm⟩ :=
        ResponsePage.appendResponse_of_kind (hkind page (List.mem_cons_self _ _)).symm
      obtain ⟨-, hmeta, hmk, -⟩ := ResponsePage.appendResponse_eq_some hm
      rw [retrieveLoop_step fetcher fuel accumulator s ho he hp hm, Run.after_outcome,
        Run.after_pages _ _ hp, Run.after_calls, hmeta]
      obtain ⟨h2, h3, h4⟩ := ih fuel (params.Set "offset" page.metadata.NextOffset) merged
        (fetcher params s).2
        (fun h => by rw [Values.Get_Set_same]; exact hlast h)
        (fun h => by rw [Values.Get_Set_same]; exact hmore h)
        (fun p hmem => by
          rw [hmk, hkind page (List.mem_cons_self _ _)]
          exact hkind p (List.mem_cons_of_mem _ hmem))
        (by simpa using hfuel)
      exact ⟨h2, by rw [h3], by rw [List.length_cons, h4, List.length_cons]⟩

/-- C4 (auto-mode termination and fetch count), as amended: when the fetch
function, asked from the first request on with the cursor it last returned,
succeeds with the pages `pages`, all of one result type, the last of which is
the first to carry an empty `next_offset`, then in auto mode the driver returns
a page with a nil error after exactly `pages.length` fetch calls, which
returned exactly these pages, as soon as the fuel covers the
`pages.length - 1` turns of the loop; when there is one page only, that page is
returned as it is. -/
theorem retrieveItems_terminates (fetcher : pageFetcher S ε σ) (fuel : Nat)
    (params : Values) (s : σ) (pages : List (ResponsePage S)) (kind : Kind)
    (h : params.Get "limit" = "")
    (hchain : cursorChain fetcher (autoParams params) s pages)
    (hkind : ∀ p ∈ pages, p.kind = kind) (hfuel : pages.length ≤ fuel + 1) :
    (∃ result, (retrieveItems fetcher fuel params s).outcome
      = some (.returned (some result) none)) ∧
    (retrieveItems fetcher fuel params s).calls.length = pages.length ∧
    (retrieveItems fetcher fuel params s).pages = pages ∧
    (∀ page, pages = [page] →
      (retrieveItems fetcher fuel params s).outcome
        = some (.returned (some page) none)) := by
  cases pages with
  | nil => exact absurd hchain (by simp [cursorChain])
  | cons page rest =>
    obtain ⟨hfetch, hlast, hmore⟩ :=
      (cursorChain_cons fetcher (autoParams params) s page rest).1 hchain
    have he : (fetcher (autoParams params) s).1.err = none := by rw [hfetch]
    have hp : (fetcher (autoParams params) s).1.page = some page := by rw [hfetch]
    rw [retrieveItems_auto_ok fetcher fuel s h he hp, Run.after_outcome,
      Run.after_pages _ _ hp, Run.after_calls]
    obtain ⟨h2, h3, h4⟩ := retrieveLoop_follows fetcher rest fuel
      ((autoParams params).Set "offset" page.metadata.NextOffset) page
      (fetcher (autoParams params) s).2
      (fun h => by rw [Values.Get_Set_same]; exact hlast h)
      (fun h => by rw [Values.Get_Set_same]; exact hmore h)
      (fun p hmem => by
        rw [hkind page (List.mem_cons_self _ _)]
        exact hkind p (List.mem_cons_of_mem _ hmem))
      (by simpa using hfuel)
    refine ⟨h2, by rw [List.length_cons, h4, List.length_cons], by rw [h3], ?_⟩
    intro only honly
    simp only [List.cons.injEq] at honly
    obtain ⟨hpage, hrest⟩ := honly
    subst hpage
    rw [retrieveLoop_done fetcher fuel page _
      (by rw [Values.Get_Set_same]; exact hlast hrest)]

/-- C4 at a concrete input: cursors "10", "20", "" give exactly three calls, and
a single page with an empty cursor gives exactly one call without any fuel and
is returned as it is. -/
theorem retrieveItems_terminates_witness :
    (Values.empty.Get "limit" = "" ∧
      cursorChain scripted (autoParams Values.empty) threePages
        [groupsPage ["A", "B"] "10", groupsPage ["C", "D"] "20", groupsPage ["E"] ""]) ∧
    (retrieveItems scripted 2 Values.empty threePages).calls.length = 3 ∧
    (retrieveItems scripted 0 Values.empty [groupsOk ["A"] ""]).calls.length = 1 ∧
    (retrieveItems scripted 0 Values.empty [groupsOk ["A"] ""]).outcome
      = some (.returned (some (groupsPage ["A"] "")) none) :=
  ⟨⟨by decide, ⟨rfl, by decide, rfl, by decide, rfl, by decide⟩⟩,
    (retrieveItems_terminates scripted 2 Values.empty threePages
      [groupsPage ["A", "B"] "10", groupsPage ["C", "D"] "20", groupsPage ["E"] ""]
      .groups (by decide) ⟨rfl, by decide, rfl, by decide, rfl, by decide⟩
      (by decide) (by decide)).2.1,
    (retrieveItems_terminates scripted 0 Values.empty [groupsOk ["A"] ""]
      [groupsPage ["A"] ""] .groups (by decide) ⟨rfl, by decide⟩
      (by decide) (by decide)).2.1,
    (retrieveItems_terminates scripted 0 Values.empty [groupsOk ["A"] ""]
      [groupsPage ["A"] ""] .groups (by decide) ⟨rfl, by decide⟩
      (by decide) (by decide)).2.2.2 _ rfl⟩

/-- C4 as first stated, refuted: the script of a page of groups with cursor "10"
and a page of users with an empty cursor is a cursor chain that ends on its
second page, yet the driver in auto mode does not end with success after two
calls: the merge of the second page panics on its type assertion, and no fuel
makes the driver return. -/
theorem retrieveItems_mixed_chain_panics :
    Values.empty.Get "limit" = "" ∧
    cursorChain scripted (autoParams Values.empty) mixedPages
      [groupsPage ["A"] "10", usersPage ""] ∧
    (retrieveItems scripted 1 Values.empty mixedPages).outcome
      = some (.panicked .typeAssertion) ∧
    (retrieveItems scripted 1 Values.empty mixedPages).calls.length = 2 ∧
    ∀ fuel result err, (retrieveItems scripted fuel Values.empty mixedPages).outcome
      ≠ some (.returned result err) := by
  refine ⟨by decide, ⟨rfl, by decide, rfl, by decide⟩, rfl, rfl, ?_⟩
  intro fuel result err
  cases fuel with
  | zero =>
    have h0 : (retrieveItems scripted 0 Values.empty mixedPages).outcome = none := rfl
    rw [h0]
    simp
  | succ fuel =>
    have h1 : (retrieveItems scripted (fuel + 1) Values.empty mixedPages).outcome
        = some (.panicked .typeAssertion) := rfl
    rw [h1]
    simp

/-! ## The parameters of the fetch calls -/

theorem chain_get {α : Type} {R : α → α → Prop} :
    ∀ (l : List α), List.Chain' R l → ∀ (i : Nat) (h : i + 1 < l.length),
      R (l.get ⟨i, Nat.lt_of_succ_lt h⟩) (l.get ⟨i + 1, h⟩) := by
  intro l hl i h
  exact List.chain'_iff_get.1 hl i (by omega)

/-- The calls of the loop: the first one, if any, is passed the parameters the
loop was entered with, and each later one is passed the cursor of the page
fetched just before it. -/
theorem retrieveLoop_advances (fetcher : pageFetcher S ε σ) (fuel : Nat) :
    ∀ (params : Values) (accumulator : ResponsePage S) (s : σ),
      List.Chain' advances (retrieveLoop fetcher fuel params accumulator s).calls ∧
      ∀ c ∈ (retrieveLoop fetcher fuel params accumulator s).calls.head?,
        c.params = params := by
  induction fuel with
  | zero =>
    intro params accumulator s
    by_cases ho : params.Get "offset" = ""
    · rw [retrieveLoop_done fetcher 0 accumulator s ho]
      simp
    · rw [retrieveLoop_zero fetcher accumulator s ho]
      simp
  | succ fuel ih =>
    intro params accumulator s
    by_cases ho : params.Get "offset" = ""
    · rw [retrieveLoop_done fetcher (fuel + 1) accumulator s ho]
      simp
    · rcases retrieveLoop_cases fetcher fuel accumulator s ho with
        ⟨e, _, heq⟩ | ⟨_, _, heq⟩ | ⟨_, _, _, _, heq⟩ | ⟨nextResult, merged, he, hp, hm, heq⟩
      · rw [heq]
        simp
      · rw [heq]
        simp
      · rw [heq]
        simp
      · rw [heq, Run.after_calls]
        obtain ⟨h1, h2⟩ := ih (params.Set "offset" merged.metadata.NextOffset) merged
          (fetcher params s).2
        obtain ⟨-, hmeta, -, -⟩ := ResponsePage.appendResponse_eq_some hm
        refine ⟨List.chain'_cons'.2 ⟨?_, h1⟩, by simp⟩
        intro d hd
        exact ⟨nextResult, hp, he, by rw [h2 d hd, hmeta]; simp [Values.Set]⟩

/-- C5 (offset advancement): whenever the driver makes a fetch call after
another one, the earlier call succeeded and the `offset` passed to the later
call is bound to exactly one value, the `next_offset` of the page that the
earlier call returned. -/
theorem retrieveItems_offset_advances (fetcher : pageFetcher S ε σ) (fuel : Nat)
    (params : Values) (s : σ) (i : Nat)
    (h : i + 1 < (retrieveItems fetcher fuel params s).calls.length) :
    advances ((retrieveItems fetcher fuel params s).calls.get ⟨i, Nat.lt_of_succ_lt h⟩)
      ((retrieveItems fetcher fuel params s).calls.get ⟨i + 1, h⟩) := by
  refine chain_get _ ?_ i h
  by_cases hl : params.Get "limit" = ""
  · cases he : (fetcher (autoParams params) s).1.err with
    | some e =>
      rw [retrieveItems_auto_err fetcher fuel s hl he]
      simp
    | none =>
      cases hp : (fetcher (autoParams params) s).1.page with
      | none =>
        rw [retrieveItems_auto_nil fetcher fuel s hl he hp]
        simp
      | some accumulator =>
        rw [retrieveItems_auto_ok fetcher fuel s hl he hp, Run.after_calls]
        obtain ⟨h1, h2⟩ := retrieveLoop_advances fetcher fuel
          ((autoParams params).Set "offset" accumulator.metadata.NextOffset) accumulator
          (fetcher (autoParams params) s).2
        refine List.chain'_cons'.2 ⟨?_, h1⟩
        intro d hd
        exact ⟨accumulator, hp, he, by rw [h2 d hd]; simp [Values.Set]⟩
  · rw [retrieveItems_manual fetcher fuel s hl]
    simp

/-- C5 at a concrete input: with pages whose cursors are "10", "20", "" and no
offset from the caller, the third call is passed the second page's cursor, and
the offsets of the three calls are "0", "10", "20". -/
theorem retrieveItems_offset_advances_witness :
    ∃ h : 1 + 1 < (retrieveItems scripted 2 Values.empty threePages).calls.length,
      advances
        ((retrieveItems scripted 2 Values.empty threePages).calls.get
          ⟨1, Nat.lt_of_succ_lt h⟩)
        ((retrieveItems scripted 2 Values.empty threePages).calls.get ⟨1 + 1, h⟩) ∧
      (retrieveItems scripted 2 Values.empty threePages).calls.map
        (fun c => (c.params "offset", (c.result.page.map
          (fun page => page.metadata.NextOffset))))
        = [(some ["0"], some "10"), (some ["10"], some "20"), (some ["20"], some "")] :=
  ⟨by decide,
    retrieveItems_offset_advances scripted 2 Values.empty threePages 1 (by decide),
    by decide⟩

/-! ## Errors -/

/-- The loop, entered with a non-empty cursor, follows pages of the
accumulator's type up to the failing fetch and returns that fetch's error with
a nil page. -/
theorem retrieveLoop_fails (fetcher : pageFetcher S ε σ) (e : ε) :
    ∀ (pages : List (ResponsePage S)) (fuel : Nat) (params : Values)
      (accumulator : ResponsePage S) (s : σ),
      params.Get "offset" ≠ "" → failsAfter fetcher e params s pages →
      (∀ p ∈ pages, p.kind = accumulator.kind) → pages.length < fuel →
      (retrieveLoop fetcher fuel params accumulator s).outcome
        = some (.returned none (some e)) ∧
      (retrieveLoop fetcher fuel params accumulator s).calls.length = pages.length + 1 := by
  intro pages
  induction pages with
  | nil =>
    intro fuel params accumulator s ho hfail _ hfuel
    cases fuel with
    | zero => simp at hfuel
    | succ fuel =>
      rw [retrieveLoop_err fetcher fuel accumulator s ho hfail]
      exact ⟨rfl, rfl⟩
  | cons page rest ih =>
    intro fuel params accumulator s ho hfail hkind hfuel
    obtain ⟨hfetch, hnext, hrest⟩ := hfail
    cases fuel with
    | zero => simp at hfuel
    | succ fuel =>
      have he : (fetcher params s).1.err = none := by rw [hfetch]
      have hp : (fetcher params s).1.page = some page := by rw [hfetch]
      obtain ⟨merged, hm⟩ :=
        ResponsePage.appendResponse_of_kind (hkind page (List.mem_cons_self _ _)).symm
      obtain ⟨-, hmeta, hmk, -⟩ := ResponsePage.appendResponse_eq_some hm
      rw [retrieveLoop_step fetcher fuel accumulator s ho he hp hm, Run.after_outcome,
        Run.after_calls, hmeta]
      obtain ⟨h2, h3⟩ := ih fuel (params.Set "offset" page.metadata.NextOffset) merged
        (fetcher params s).2
        (by rw [Values.Get_Set_same]; exact hnext) hrest
        (fun p hmem => by
          rw [hmk, hkind page (List.mem_cons_self _ _)]
          exact hkind p (List.mem_cons_of_mem _ hmem))
        (by simpa using hfuel)
      exact ⟨h2, by rw [List.length_cons, h3, List.length_cons]⟩

/-- In auto mode the driver follows pages of one type up to the failing fetch
and returns that fetch's error with a nil page. -/
theorem retrieveItems_fails (fetcher : pageFetcher S ε σ) (e : ε) (fuel : Nat)
    {params : Values} (s : σ) (pages : List (ResponsePage S)) (kind : Kind)
    (h : params.Get "limit" = "")
    (hfail : failsAfter fetcher e (autoParams params) s pages)
    (hkind : ∀ p ∈ pages, p.kind = kind) (hfuel : pages.length ≤ fuel) :
    (retrieveItems fetcher fuel params s).outcome = some (.returned none (some e)) ∧
    (retrieveItems fetcher fuel params s).calls.length = pages.length + 1 := by
  cases pages with
  | nil =>
    rw [retrieveItems_auto_err fetcher fuel s h hfail]
    exact ⟨rfl, rfl⟩
  | cons page rest =>
    obtain ⟨hfetch, hnext, hrest⟩ := hfail
    have he : (fetcher (autoParams params) s).1.err = none := by rw [hfetch]
    have hp : (fetcher (autoParams params) s).1.page = some page := by rw [hfetch]
    rw [retrieveItems_auto_ok fetcher fuel s h he hp, Run.after_outcome, Run.after_calls]
    obtain ⟨h2, h3⟩ := retrieveLoop_fails fetcher e rest fuel
      ((autoParams params).Set "offset" page.metadata.NextOffset) page
      (fetcher (autoParams params) s).2
      (by rw [Values.Get_Set_same]; exact hnext) hrest
      (fun p hmem => by
        rw [hkind page (List.mem_cons_self _ _)]
        exact hkind p (List.mem_cons_of_mem _ hmem))
      (by simpa using hfuel)
    exact ⟨h2, by rw [List.length_cons, h3, List.length_cons]⟩

/-- Every page the closure of a list operation returns is a wrapped result of
the operation's type. -/
theorem Client.cb_page {α : Type} (a : Asserts S α)
    (retrieve : Values → σ → (Option α × Option ε) × σ) (params : Values) (s : σ)
    {page : ResponsePage S} (h : (Client.cb a retrieve params s).1.page = some page) :
    ∃ x, page = a.wrap x := by
  unfold Client.cb at h
  rcases hr : retrieve params s with ⟨⟨result, err⟩, s1⟩
  rw [hr] at h
  cases result with
  | none => simp at h
  | some x => exact ⟨x, by simpa using h.symm⟩

theorem failsAfter_cb_pages {α : Type} (a : Asserts S α)
    (retrieve : Values → σ → (Option α × Option ε) × σ) (e : ε) :
    ∀ (pages : List (ResponsePage S)) (params : Values) (s : σ),
      failsAfter (Client.cb a retrieve) e params s pages →
      ∀ p ∈ pages, ∃ x, p = a.wrap x := by
  intro pages
  induction pages with
  | nil => intro _ _ _ p hp; simp at hp
  | cons page rest ih =>
    intro params s hfail p hp
    obtain ⟨hfetch, -, hrest⟩ := hfail
    rw [List.mem_cons] at hp
    rcases hp with rfl | hp
    · exact Client.cb_page a retrieve params s (by rw [hfetch])
    · exact ih _ _ hrest p hp

/-- A list operation whose fetches fail after some pages returns a nil result
and the error of the failing fetch. -/
theorem Client.listOperation_fails {α : Type} (a : Asserts S α) (kind : Kind)
    (hwrap : ∀ x, (a.wrap x).kind = kind)
    (retrieve : Values → σ → (Option α × Option ε) × σ)
    (options : List (Values → Values)) (e : ε) (fuel : Nat) (s : σ)
    (pages : List (ResponsePage S))
    (h : (options.foldl (fun params o => o params) Values.empty).Get "limit" = "")
    (hfail : failsAfter (Client.cb a retrieve) e
      (autoParams (options.foldl (fun params o => o params) Values.empty)) s pages)
    (hfuel : pages.length ≤ fuel) :
    Client.listOperation a retrieve options fuel s = some (.returned none (some e)) := by
  have hkind : ∀ p ∈ pages, p.kind = kind := by
    intro p hp
    obtain ⟨x, rfl⟩ := failsAfter_cb_pages a retrieve e pages _ _ hfail p hp
    exact hwrap x
  obtain ⟨hout, -⟩ := retrieveItems_fails (Client.cb a retrieve) e fuel s pages kind h hfail
    hkind hfuel
  unfold Client.listOperation
  simp only [hout, Option.map_some']

/-- C6 (fail-fast error propagation): in auto mode, when the fetch calls before
the k-th succeed with pages of one result type, each with a non-empty cursor,
and the k-th fails with the error `e`, the driver makes exactly k calls and
returns the error `e` itself together with a nil page, as soon as the fuel
covers the k - 1 turns of the loop; and `GetUsers` then returns a nil result
and `e`. -/
theorem retrieveItems_fail_fast (e : ε) (fuel : Nat) (pages : List (ResponsePage S))
    (hfuel : pages.length ≤ fuel) :
    (∀ (fetcher : pageFetcher S ε σ) (params : Values) (s : σ) (kind : Kind),
      params.Get "limit" = "" → failsAfter fetcher e (autoParams params) s pages →
      (∀ p ∈ pages, p.kind = kind) →
      (retrieveItems fetcher fuel params s).outcome = some (.returned none (some e)) ∧
      (retrieveItems fetcher fuel params s).calls.length = pages.length + 1) ∧
    (∀ (c : Client S ε σ) (options : List (Values → Values)) (s : σ),
      (options.foldl (fun params o => o params) Values.empty).Get "limit" = "" →
      failsAfter (Client.cb (asUsers S) c.retrieveUsers) e
        (autoParams (options.foldl (fun params o => o params) Values.empty)) s pages →
      c.GetUsers options fuel s = some (.returned none (some e))) := by
  refine ⟨?_, ?_⟩
  · intro fetcher params s kind h hfail hkind
    exact retrieveItems_fails fetcher e fuel s pages kind h hfail hkind hfuel
  · intro c options s h hfail
    exact Client.listOperation_fails (asUsers S) .users (fun _ => rfl) c.retrieveUsers options
      e fuel s pages h hfail hfuel

/-- C6 at a concrete input: the second of three expected fetches fails with
"timeout" after a first page `[A, B]`; the driver returns that error and no
page. And `GetUsers` on a transport that fails on the second request returns
a nil result and that error. -/
theorem retrieveItems_fail_fast_witness :
    ((retrieveItems scripted 1 Values.empty
        [groupsOk ["A", "B"] "10", fetchFails "timeout", groupsOk ["E"] ""]).outcome
        = some (.returned none (some "timeout")) ∧
      (retrieveItems scripted 1 Values.empty
        [groupsOk ["A", "B"] "10", fetchFails "timeout", groupsOk ["E"] ""]).calls.length
        = 2) ∧
    stubClient.GetUsers [] 1 [([1, 1], none), ([], some "timeout")]
      = some (.returned none (some "timeout")) :=
  ⟨(retrieveItems_fail_fast "timeout" 1 [groupsPage ["A", "B"] "10"] (by decide)).1
      scripted Values.empty
      [groupsOk ["A", "B"] "10", fetchFails "timeout", groupsOk ["E"] ""] .groups
      (by decide) ⟨rfl, by decide, rfl⟩ (by decide),
    (retrieveItems_fail_fast "timeout" 1
      [.users { Metadata := ⟨"10", "", ""⟩, StatResult := (), Response := [] }]
      (by decide)).2
      stubClient [] [([1, 1], none), ([], some "timeout")] (by decide)
      ⟨rfl, by decide, rfl⟩⟩

/-! ## Defaults of `offset` and `limit` -/

/-- The loop changes no parameter but `offset`. -/
theorem retrieveLoop_frame (fetcher : pageFetcher S ε σ) (fuel : Nat) :
    ∀ (params : Values) (accumulator : ResponsePage S) (s : σ),
      ∀ c ∈ (retrieveLoop fetcher fuel params accumulator s).calls,
        ∀ key, key ≠ "offset" → c.params key = params key := by
  induction fuel with
  | zero =>
    intro params accumulator s c hc
    by_cases ho : params.Get "offset" = ""
    · rw [retrieveLoop_done fetcher 0 accumulator s ho] at hc
      simp at hc
    · rw [retrieveLoop_zero fetcher accumulator s ho] at hc
      simp at hc
  | succ fuel ih =>
    intro params accumulator s c hc key hkey
    by_cases ho : params.Get "offset" = ""
    · rw [retrieveLoop_done fetcher (fuel + 1) accumulator s ho] at hc
      simp at hc
    · rcases retrieveLoop_cases fetcher fuel accumulator s ho with
        ⟨e, _, heq⟩ | ⟨_, _, heq⟩ | ⟨_, _, _, _, heq⟩ | ⟨nextResult, merged, he, hp, hm, heq⟩
      · rw [heq] at hc
        simp only [List.mem_singleton] at hc
        rw [hc]
      · rw [heq] at hc
        simp only [List.mem_singleton] at hc
        rw [hc]
      · rw [heq] at hc
        simp only [List.mem_singleton] at hc
        rw [hc]
      · rw [heq, Run.after_calls, List.mem_cons] at hc
        rcases hc with rfl | hc
        · rfl
        · rw [ih _ _ _ c hc key hkey]
          simp [Values.Set, hkey]

/-- In auto mode every fetch call is passed the parameters of the first one,
but for `offset`. -/
theorem retrieveItems_auto_frame (fetcher : pageFetcher S ε σ) (fuel : Nat)
    {params : Values} (s : σ) (h : params.Get "limit" = "") :
    ∀ c ∈ (retrieveItems fetcher fuel params s).calls,
      ∀ key, key ≠ "offset" → c.params key = autoParams params key := by
  intro c hc key hkey
  cases he : (fetcher (autoParams params) s).1.err with
  | some e =>
    rw [retrieveItems_auto_err fetcher fuel s h he] at hc
    simp only [List.mem_singleton] at hc
    rw [hc]
  | none =>
    cases hp : (fetcher (autoParams params) s).1.page with
    | none =>
      rw [retrieveItems_auto_nil fetcher fuel s h he hp] at hc
      simp only [List.mem_singleton] at hc
      rw [hc]
    | some accumulator =>
      rw [retrieveItems_auto_ok fetcher fuel s h he hp, Run.after_calls, List.mem_cons] at hc
      rcases hc with rfl | hc
      · rfl
      · rw [retrieveLoop_frame fetcher fuel _ _ _ c hc key hkey]
        simp [Values.Set, hkey]

/-- The driver always makes a first fetch call: in manual mode with the caller's
parameters and `offset` defaulted, in auto mode with `limit` set to "100" as
well. -/
theorem retrieveItems_first_call (fetcher : pageFetcher S ε σ) (fuel : Nat)
    (params : Values) (s : σ) :
    ∃ first rest, (retrieveItems fetcher fuel params s).calls = first :: rest ∧
      first.params
        = if params.Get "limit" = "" then autoParams params
          else if params.Get "offset" = "" then params.Set "offset" "0" else params := by
  by_cases h : params.Get "limit" = ""
  · simp only [h, if_true]
    cases he : (fetcher (autoParams params) s).1.err with
    | some e =>
      rw [retrieveItems_auto_err fetcher fuel s h he]
      exact ⟨_, _, rfl, rfl⟩
    | none =>
      cases hp : (fetcher (autoParams params) s).1.page with
      | none =>
        rw [retrieveItems_auto_nil fetcher fuel s h he hp]
        exact ⟨_, _, rfl, rfl⟩
      | some accumulator =>
        rw [retrieveItems_auto_ok fetcher fuel s h he hp]
        exact ⟨_, _, rfl, rfl⟩
  · simp only [h, if_false]
    rw [retrieveItems_manual fetcher fuel s h]
    exact ⟨_, _, rfl, rfl⟩

/-- C7 (default offset): the driver always makes a first fetch call, in manual
as in auto mode and whatever the fuel. When the caller supplied no `offset`
that call is passed `offset` "0"; when the caller supplied a non-empty `offset`
that call is passed the caller's `offset` unchanged. -/
theorem retrieveItems_default_offset (fetcher : pageFetcher S ε σ) (fuel : Nat)
    (params : Values) (s : σ) :
    ∃ first rest, (retrieveItems fetcher fuel params s).calls = first :: rest ∧
      (params "offset" = none → first.params "offset" = some ["0"]) ∧
      (params.Get "offset" = "" → first.params "offset" = some ["0"]) ∧
      (params.Get "offset" ≠ "" → first.params "offset" = params "offset") := by
  obtain ⟨first, rest, hcalls, hfirst⟩ := retrieveItems_first_call fetcher fuel params s
  have hempty : params.Get "offset" = "" → first.params "offset" = some ["0"] := by
    intro ho
    rw [hfirst]
    by_cases h : params.Get "limit" = "" <;> simp [h, ho, autoParams, Values.Set]
  refine ⟨first, rest, hcalls, ?_, hempty, ?_⟩
  · intro hnone
    exact hempty (by simp [Values.Get, hnone])
  · intro ho
    rw [hfirst]
    by_cases h : params.Get "limit" = "" <;> simp [h, ho, autoParams, Values.Set]

/-- C8 (default page size): in auto mode the driver makes at least one fetch
call and every fetch call it makes is passed `limit` "100"; when the caller set
a limit, the one fetch call is passed the caller's `limit`. -/
theorem retrieveItems_default_limit (fetcher : pageFetcher S ε σ) (fuel : Nat)
    (params : Values) (s : σ) :
    (params.Get "limit" = "" →
      (retrieveItems fetcher fuel params s).calls ≠ [] ∧
      ∀ c ∈ (retrieveItems fetcher fuel params s).calls, c.params "limit" = some ["100"]) ∧
    (params.Get "limit" ≠ "" →
      ∃ only, (retrieveItems fetcher fuel params s).calls = [only] ∧
        only.params "limit" = params "limit") := by
  refine ⟨?_, ?_⟩
  · intro h
    obtain ⟨first, rest, hcalls, -⟩ := retrieveItems_first_call fetcher fuel params s
    refine ⟨by rw [hcalls]; exact List.cons_ne_nil _ _, ?_⟩
    intro c hc
    rw [retrieveItems_auto_frame fetcher fuel s h c hc "limit" (by decide)]
    simp [autoParams, Values.Set]
  · intro h
    rw [retrieveItems_manual fetcher fuel s h]
    refine ⟨_, rfl, ?_⟩
    show (if params.Get "offset" = "" then params.Set "offset" "0" else params) "limit" = _
    split
    · simp [Values.Set]
    · rfl

/-- C7 at a concrete input: without an offset from the caller the first call is
passed "0", with the caller's offset "40" it is passed "40". -/
theorem retrieveItems_default_offset_witness :
    (∃ first rest, (retrieveItems scripted 2 Values.empty threePages).calls = first :: rest ∧
      first.params "offset" = some ["0"]) ∧
    (∃ first rest,
      (retrieveItems scripted 2 (Values.empty.Set "offset" "40") threePages).calls
        = first :: rest ∧
      first.params "offset" = some ["40"]) :=
  ⟨match retrieveItems_default_offset scripted 2 Values.empty threePages with
    | ⟨first, rest, hcalls, hnone, _, _⟩ => ⟨first, rest, hcalls, hnone rfl⟩,
   match retrieveItems_default_offset scripted 2 (Values.empty.Set "offset" "40")
      threePages with
    | ⟨first, rest, hcalls, _, _, hkeep⟩ => ⟨first, rest, hcalls, hkeep (by decide)⟩⟩

/-- C8 at a concrete input: the three calls of the three-page scenario are all
passed limit "100", and a caller's limit "2" is passed on as it is. -/
theorem retrieveItems_default_limit_witness :
    (∀ c ∈ (retrieveItems scripted 2 Values.empty threePages).calls,
      c.params "limit" = some ["100"]) ∧
    (retrieveItems scripted 2 Values.empty threePages).calls.length = 3 ∧
    (∃ only, (retrieveItems scripted 2 (Values.empty.Set "limit" "2") threePages).calls
        = [only] ∧
      only.params "limit" = some ["2"]) :=
  ⟨((retrieveItems_default_limit scripted 2 Values.empty threePages).1 (by decide)).2,
    by decide,
    (retrieveItems_default_limit scripted 2 (Values.empty.Set "limit" "2") threePages).2
      (by decide)⟩

/-! ## The merge method and its type assertion -/

/-- C9 (appendResponse contract): for each of the eight list results, appending
a slice of the result's element type succeeds, leaves the result's items
followed by the slice's items, and changes neither the pagination metadata nor
the status part; seen through the interface, the items after the call are the
receiver's items followed by the argument's. -/
theorem appendResponse_contract :
    (∀ (r : GetUsersResult S) (xs : List User), ∃ q, r.appendResponse (.users xs) = some q ∧
      q.Response = r.Response ++ xs ∧ q.Metadata = r.Metadata ∧
      q.StatResult = r.StatResult) ∧
    (∀ (r : GetGroupsResult S) (xs : List Group), ∃ q, r.appendResponse (.groups xs) = some q ∧
      q.Response = r.Response ++ xs ∧ q.Metadata = r.Metadata ∧
      q.StatResult = r.StatResult) ∧
    (∀ (r : GetPhonesResult S) (xs : List Phone), ∃ q, r.appendResponse (.phones xs) = some q ∧
      q.Response = r.Response ++ xs ∧ q.Metadata = r.Metadata ∧
      q.StatResult = r.StatResult) ∧
    (∀ (r : GetTokensResult S) (xs : List Token), ∃ q, r.appendResponse (.tokens xs) = some q ∧
      q.Response = r.Response ++ xs ∧ q.Metadata = r.Metadata ∧
      q.StatResult = r.StatResult) ∧
    (∀ (r : GetU2FTokensResult S) (xs : List U2FToken), ∃ q, r.appendResponse (.u2fTokens xs) = some q ∧
      q.Response = r.Response ++ xs ∧ q.Metadata = r.Metadata ∧
      q.StatResult = r.StatResult) ∧
    (∀ (r : GetIntegrationsResult S) (xs : List Integration), ∃ q, r.appendResponse (.integrations xs) = some q ∧
      q.Response = r.Response ++ xs ∧ q.Metadata = r.Metadata ∧
      q.StatResult = r.StatResult) ∧
    (∀ (r : GetAdministratorsResult S) (xs : List Administrator), ∃ q, r.appendResponse (.administrators xs) = some q ∧
      q.Response = r.Response ++ xs ∧ q.Metadata = r.Metadata ∧
      q.StatResult = r.StatResult) ∧
    (∀ (r : GetAdministrativeUnitsResult S) (xs : List AdministrativeUnit), ∃ q, r.appendResponse (.administrativeUnits xs) = some q ∧
      q.Response = r.Response ++ xs ∧ q.Metadata = r.Metadata ∧
      q.StatResult = r.StatResult) ∧
    (∀ (page : ResponsePage S) (items : ResponseItems), items.kind = page.kind →
      ∃ merged, page.appendResponse items = some merged ∧
        merged.items = page.items ++ items.elems ∧ merged.metadata = page.metadata) := by
  refine ⟨?_, ?_, ?_, ?_, ?_, ?_, ?_, ?_, ?_⟩
  · exact fun r xs => ⟨_, rfl, rfl, rfl, rfl⟩
  · exact fun r xs => ⟨_, rfl, rfl, rfl, rfl⟩
  · exact fun r xs => ⟨_, rfl, rfl, rfl, rfl⟩
  · exact fun r xs => ⟨_, rfl, rfl, rfl, rfl⟩
  · exact fun r xs => ⟨_, rfl, rfl, rfl, rfl⟩
  · exact fun r xs => ⟨_, rfl, rfl, rfl, rfl⟩
  · exact fun r xs => ⟨_, rfl, rfl, rfl, rfl⟩
  · exact fun r xs => ⟨_, rfl, rfl, rfl, rfl⟩
  · intro page items hkind
    cases hm : page.appendResponse items with
    | none => exact absurd hkind ((ResponsePage.appendResponse_eq_none_iff _ _).1 hm)
    | some merged =>
      obtain ⟨h1, h2, -, -⟩ := ResponsePage.appendResponse_eq_some hm
      exact ⟨merged, rfl, h1, h2⟩

/-- With a fetch function that, whenever it reports no error, returns a page
of one fixed type, the loop neither dereferences nil nor fails a type
assertion, and a page it returns is of that type. -/
theorem retrieveLoop_typed (fetcher : pageFetcher S ε σ) (kind : Kind)
    (hf : ∀ params s, (fetcher params s).1.err = none →
      ∃ p, (fetcher params s).1.page = some p ∧ p.kind = kind) (fuel : Nat) :
    ∀ (params : Values) (accumulator : ResponsePage S) (s : σ), accumulator.kind = kind →
      (∀ cause, (retrieveLoop fetcher fuel params accumulator s).outcome
        ≠ some (.panicked cause)) ∧
      (∀ r err, (retrieveLoop fetcher fuel params accumulator s).outcome
        = some (.returned (some r) err) → r.kind = kind) := by
  induction fuel with
  | zero =>
    intro params accumulator s hk
    by_cases ho : params.Get "offset" = ""
    · rw [retrieveLoop_done fetcher 0 accumulator s ho]
      refine ⟨by simp, ?_⟩
      intro r err h
      simp only [Option.some.injEq, Outcome.returned.injEq] at h
      rw [← h.1]
      exact hk
    · rw [retrieveLoop_zero fetcher accumulator s ho]
      simp
  | succ fuel ih =>
    intro params accumulator s hk
    by_cases ho : params.Get "offset" = ""
    · rw [retrieveLoop_done fetcher (fuel + 1) accumulator s ho]
      refine ⟨by simp, ?_⟩
      intro r err h
      simp only [Option.some.injEq, Outcome.returned.injEq] at h
      rw [← h.1]
      exact hk
    · rcases retrieveLoop_cases fetcher fuel accumulator s ho with
        ⟨e, _, heq⟩ | ⟨he, hp, heq⟩ | ⟨nextResult, he, hp, hm, heq⟩ |
        ⟨nextResult, merged, he, hp, hm, heq⟩
      · rw [heq]
        simp
      · obtain ⟨p, hp2, -⟩ := hf params s he
        rw [hp] at hp2
        simp at hp2
      · obtain ⟨p, hp2, hpk⟩ := hf params s he
        rw [hp] at hp2
        simp only [Option.some.injEq] at hp2
        subst hp2
        exact absurd (hk.trans hpk.symm) ((ResponsePage.appendResponse_eq_none_iff _ _).1 hm)
      · obtain ⟨p, hp2, hpk⟩ := hf params s he
        rw [hp] at hp2
        simp only [Option.some.injEq] at hp2
        subst hp2
        obtain ⟨-, -, hmk, -⟩ := ResponsePage.appendResponse_eq_some hm
        rw [heq, Run.after_outcome]
        exact ih _ merged _ (hmk.trans hpk)

/-- With a fetch function that, whenever it reports no error, returns a page
of one fixed type, the driver does not panic, and a page it returns with a nil
error is of that type. -/
theorem retrieveItems_typed (fetcher : pageFetcher S ε σ) (kind : Kind)
    (hf : ∀ params s, (fetcher params s).1.err = none →
      ∃ p, (fetcher params s).1.page = some p ∧ p.kind = kind) (fuel : Nat)
    (params : Values) (s : σ) :
    (∀ cause, (retrieveItems fetcher fuel params s).outcome ≠ some (.panicked cause)) ∧
    (∀ r, (retrieveItems fetcher fuel params s).outcome
      = some (.returned (some r) none) → r.kind = kind) := by
  by_cases h : params.Get "limit" = ""
  · cases he : (fetcher (autoParams params) s).1.err with
    | some e =>
      rw [retrieveItems_auto_err fetcher fuel s h he]
      simp
    | none =>
      obtain ⟨p, hp, hpk⟩ := hf _ _ he
      rw [retrieveItems_auto_ok fetcher fuel s h he hp, Run.after_outcome]
      obtain ⟨h1, h2⟩ := retrieveLoop_typed fetcher kind hf fuel
        ((autoParams params).Set "offset" p.metadata.NextOffset) p
        (fetcher (autoParams params) s).2 hpk
      exact ⟨h1, fun r hr => h2 r none hr⟩
  · rw [retrieveItems_manual fetcher fuel s h]
    refine ⟨by simp, ?_⟩
    intro r hr
    simp only [Option.some.injEq, Outcome.returned.injEq] at hr
    obtain ⟨p, hp, hpk⟩ := hf _ _ hr.2
    rw [hr.1] at hp
    simp only [Option.some.injEq] at hp
    rw [hp]
    exact hpk

/-- A `retrieve...` method returns a nil result only together with an error. -/
theorem Client.retrieveList_nil {α : Type} (c : Client S ε σ) (path : String)
    (unmarshal : List UInt8 → Except ε α) (params : Values) (s : σ) :
    (c.retrieveList path unmarshal params s).1.2 = none →
      (c.retrieveList path unmarshal params s).1.1 ≠ none := by
  unfold Client.retrieveList
  rcases c.SignedCall "GET" path params s with ⟨⟨body, err⟩, s1⟩
  cases err with
  | some e => simp
  | none =>
    cases hu : unmarshal body with
    | error e => simp [hu]
    | ok result => simp [hu]

/-- A list operation whose `retrieve` returns a nil result only together with
an error never panics. -/
theorem Client.listOperation_no_panic {α : Type} (a : Asserts S α) (kind : Kind)
    (hwrap : ∀ x, (a.wrap x).kind = kind)
    (hassert : ∀ p, p.kind = kind → a.assert p ≠ none)
    (retrieve : Values → σ → (Option α × Option ε) × σ)
    (hretrieve : ∀ params s, (retrieve params s).1.2 = none → (retrieve params s).1.1 ≠ none)
    (options : List (Values → Values)) (fuel : Nat) (s : σ) (cause : Panic) :
    Client.listOperation a retrieve options fuel s ≠ some (.panicked cause) := by
  have hf : ∀ params s, (Client.cb a retrieve params s).1.err = none →
      ∃ p, (Client.cb a retrieve params s).1.page = some p ∧ p.kind = kind := by
    intro params s he
    have hr := hretrieve params s
    unfold Client.cb at he ⊢
    rcases hrs : retrieve params s with ⟨⟨result, err⟩, s1⟩
    rw [hrs] at he hr
    simp only at he hr
    cases result with
    | none => exact absurd rfl (hr he)
    | some x => exact ⟨a.wrap x, rfl, hwrap x⟩
  obtain ⟨h1, h2⟩ := retrieveItems_typed (Client.cb a retrieve) kind hf fuel
    (options.foldl (fun params o => o params) Values.empty) s
  unfold Client.listOperation
  simp only
  cases ho : (retrieveItems (Client.cb a retrieve) fuel
      (options.foldl (fun params o => o params) Values.empty) s).outcome with
  | none => simp
  | some outcome =>
    cases outcome with
    | panicked cause2 => exact absurd ho (h1 cause2)
    | returned page err =>
      cases err with
      | some e => simp
      | none =>
        cases page with
        | none => simp
        | some response =>
          have hk := h2 response ho
          cases hassert_eq : a.assert response with
          | none => exact absurd hassert_eq (hassert response hk)
          | some result => simp [hassert_eq]

/-- C10 (merge type safety): none of the twelve public list operations panics,
whatever the transport and the decoder return, whatever the options and the
fuel: neither the type assertion of `appendResponse` in the loop nor the final
type assertion of the wrapper fails (nor is a nil page dereferenced). -/
theorem list_operations_never_panic (c : Client S ε σ) (userID : String)
    (options : List (Values → Values)) (fuel : Nat) (s : σ) (cause : Panic) :
    c.GetUsers options fuel s ≠ some (.panicked cause) ∧
    c.GetGroups options fuel s ≠ some (.panicked cause) ∧
    c.GetUserGroups userID options fuel s ≠ some (.panicked cause) ∧
    c.GetPhones options fuel s ≠ some (.panicked cause) ∧
    c.GetUserPhones userID options fuel s ≠ some (.panicked cause) ∧
    c.GetTokens options fuel s ≠ some (.panicked cause) ∧
    c.GetUserTokens userID options fuel s ≠ some (.panicked cause) ∧
    c.GetU2FTokens options fuel s ≠ some (.panicked cause) ∧
    c.GetUserU2FTokens userID options fuel s ≠ some (.panicked cause) ∧
    c.GetIntegrations options fuel s ≠ some (.panicked cause) ∧
    c.GetAdministrators options fuel s ≠ some (.panicked cause) ∧
    c.GetAdministrativeUnits options fuel s ≠ some (.panicked cause) := by
  refine ⟨?_, ?_, ?_, ?_, ?_, ?_, ?_, ?_, ?_, ?_, ?_, ?_⟩
  · exact Client.listOperation_no_panic (asUsers S) .users (fun _ => rfl)
      (fun p hp => by cases p <;> simp_all [asUsers, ResponsePage.kind,
        ResponsePage.getResponse, ResponseItems.kind, GetUsersResult.getResponse,
        GetGroupsResult.getResponse, GetPhonesResult.getResponse,
        GetTokensResult.getResponse, GetU2FTokensResult.getResponse,
        GetIntegrationsResult.getResponse, GetAdministratorsResult.getResponse,
        GetAdministrativeUnitsResult.getResponse])
      _ (c.retrieveList_nil _ _) options fuel s cause
  · exact Client.listOperation_no_panic (asGroups S) .groups (fun _ => rfl)
      (fun p hp => by cases p <;> simp_all [asGroups, ResponsePage.kind,
        ResponsePage.getResponse, ResponseItems.kind, GetUsersResult.getResponse,
        GetGroupsResult.getResponse, GetPhonesResult.getResponse,
        GetTokensResult.getResponse, GetU2FTokensResult.getResponse,
        GetIntegrationsResult.getResponse, GetAdministratorsResult.getResponse,
        GetAdministrativeUnitsResult.getResponse])
      _ (c.retrieveList_nil _ _) options fuel s cause
  · exact Client.listOperation_no_panic (asGroups S) .groups (fun _ => rfl)
      (fun p hp => by cases p <;> simp_all [asGroups, ResponsePage.kind,
        ResponsePage.getResponse, ResponseItems.kind, GetUsersResult.getResponse,
        GetGroupsResult.getResponse, GetPhonesResult.getResponse,
        GetTokensResult.getResponse, GetU2FTokensResult.getResponse,
        GetIntegrationsResult.getResponse, GetAdministratorsResult.getResponse,
        GetAdministrativeUnitsResult.getResponse])
      _ (c.retrieveList_nil _ _) options fuel s cause
  · exact Client.listOperation_no_panic (asPhones S) .phones (fun _ => rfl)
      (fun p hp => by cases p <;> simp_all [asPhones, ResponsePage.kind,
        ResponsePage.getResponse, ResponseItems.kind, GetUsersResult.getResponse,
        GetGroupsResult.getResponse, GetPhonesResult.getResponse,
        GetTokensResult.getResponse, GetU2FTokensResult.getResponse,
        GetIntegrationsResult.getResponse, GetAdministratorsResult.getResponse,
        GetAdministrativeUnitsResult.getResponse])
      _ (c.retrieveList_nil _ _) options fuel s cause
  · exact Client.listOperation_no_panic (asPhones S) .phones (fun _ => rfl)
      (fun p hp => by cases p <;> simp_all [asPhones, ResponsePage.kind,
        ResponsePage.getResponse, ResponseItems.kind, GetUsersResult.getResponse,
        GetGroupsResult.getResponse, GetPhonesResult.getResponse,
        GetTokensResult.getResponse, GetU2FTokensResult.getResponse,
        GetIntegrationsResult.getResponse, GetAdministratorsResult.getResponse,
        GetAdministrativeUnitsResult.getResponse])
      _ (c.retrieveList_nil _ _) options fuel s cause
  · exact Client.listOperation_no_panic (asTokens S) .tokens (fun _ => rfl)
      (fun p hp => by cases p <;> simp_all [asTokens, ResponsePage.kind,
        ResponsePage.getResponse, ResponseItems.kind, GetUsersResult.getResponse,
        GetGroupsResult.getResponse, GetPhonesResult.getResponse,
        GetTokensResult.getResponse, GetU2FTokensResult.getResponse,
        GetIntegrationsResult.getResponse, GetAdministratorsResult.getResponse,
        GetAdministrativeUnitsResult.getResponse])
      _ (c.retrieveList_nil _ _) options fuel s cause
  · exact Client.listOperation_no_panic (asTokens S) .tokens (fun _ => rfl)
      (fun p hp => by cases p <;> simp_all [asTokens, ResponsePage.kind,
        ResponsePage.getResponse, ResponseItems.kind, GetUsersResult.getResponse,
        GetGroupsResult.getResponse, GetPhonesResult.getResponse,
        GetTokensResult.getResponse, GetU2FTokensResult.getResponse,
        GetIntegrationsResult.getResponse, GetAdministratorsResult.getResponse,
        GetAdministrativeUnitsResult.getResponse])
      _ (c.retrieveList_nil _ _) options fuel s cause
  · exact Client.listOperation_no_panic (asU2FTokens S) .u2fTokens (fun _ => rfl)
      (fun p hp => by cases p <;> simp_all [asU2FTokens, ResponsePage.kind,
        ResponsePage.getResponse, ResponseItems.kind, GetUsersResult.getResponse,
        GetGroupsResult.getResponse, GetPhonesResult.getResponse,
        GetTokensResult.getResponse, GetU2FTokensResult.getResponse,
        GetIntegrationsResult.getResponse, GetAdministratorsResult.getResponse,
        GetAdministrativeUnitsResult.getResponse])
      _ (c.retrieveList_nil _ _) options fuel s cause
  · exact Client.listOperation_no_panic (asU2FTokens S) .u2fTokens (fun _ => rfl)
      (fun p hp => by cases p <;> simp_all [asU2FTokens, ResponsePage.kind,
        ResponsePage.getResponse, ResponseItems.kind, GetUsersResult.getResponse,
        GetGroupsResult.getResponse, GetPhonesResult.getResponse,
        GetTokensResult.getResponse, GetU2FTokensResult.getResponse,
        GetIntegrationsResult.getResponse, GetAdministratorsResult.getResponse,
        GetAdministrativeUnitsResult.getResponse])
      _ (c.retrieveList_nil _ _) options fuel s cause
  · exact Client.listOperation_no_panic (asIntegrations S) .integrations (fun _ => rfl)
      (fun p hp => by cases p <;> simp_all [asIntegrations, ResponsePage.kind,
        ResponsePage.getResponse, ResponseItems.kind, GetUsersResult.getResponse,
        GetGroupsResult.getResponse, GetPhonesResult.getResponse,
        GetTokensResult.getResponse, GetU2FTokensResult.getResponse,
        GetIntegrationsResult.getResponse, GetAdministratorsResult.getResponse,
        GetAdministrativeUnitsResult.getResponse])
      _ (c.retrieveList_nil _ _) options fuel s cause
  · exact Client.listOperation_no_panic (asAdministrators S) .administrators (fun _ => rfl)
      (fun p hp => by cases p <;> simp_all [asAdministrators, ResponsePage.kind,
        ResponsePage.getResponse, ResponseItems.kind, GetUsersResult.getResponse,
        GetGroupsResult.getResponse, GetPhonesResult.getResponse,
        GetTokensResult.getResponse, GetU2FTokensResult.getResponse,
        GetIntegrationsResult.getResponse, GetAdministratorsResult.getResponse,
        GetAdministrativeUnitsResult.getResponse])
      _ (c.retrieveList_nil _ _) options fuel s cause
  · exact Client.listOperation_no_panic (asAdministrativeUnits S) .administrativeUnits (fun _ => rfl)
      (fun p hp => by cases p <;> simp_all [asAdministrativeUnits, ResponsePage.kind,
        ResponsePage.getResponse, ResponseItems.kind, GetUsersResult.getResponse,
        GetGroupsResult.getResponse, GetPhonesResult.getResponse,
        GetTokensResult.getResponse, GetU2FTokensResult.getResponse,
        GetIntegrationsResult.getResponse, GetAdministratorsResult.getResponse,
        GetAdministrativeUnitsResult.getResponse])
      _ (c.retrieveList_nil _ _) options fuel s cause

/-! ## Filter parameters and the `Limit` option -/

/-- C11 (filter parameters are framed): every fetch call the driver makes, in
manual and in auto mode, on every turn of the loop and whatever the fuel, is
passed for every key other than `offset` and `limit` exactly the binding the
caller supplied, and no binding where the caller supplied none. -/
theorem retrieveItems_frames_filters (fetcher : pageFetcher S ε σ) (fuel : Nat)
    (params : Values) (s : σ) (c : Call S ε)
    (hc : c ∈ (retrieveItems fetcher fuel params s).calls) (key : String)
    (hoffset : key ≠ "offset") (hlimit : key ≠ "limit") :
    c.params key = params key := by
  by_cases h : params.Get "limit" = ""
  · rw [retrieveItems_auto_frame fetcher fuel s h c hc key hoffset]
    unfold autoParams
    split <;> simp [Values.Set, hoffset, hlimit]
  · rw [retrieveItems_manual fetcher fuel s h] at hc
    simp only [List.mem_singleton] at hc
    rw [hc]
    show (if params.Get "offset" = "" then params.Set "offset" "0" else params) key = _
    split
    · simp [Values.Set, hoffset]
    · rfl

/-- C11 at a concrete input: with the option `GetUsersUsername "alice"` each of
the three calls of the three-page scenario is passed username "alice" and no
`number`. -/
theorem retrieveItems_frames_filters_witness :
    (retrieveItems scripted 2 (GetUsersUsername "alice" Values.empty) threePages).calls.map
        (fun c => (c.params "username", c.params "number"))
      = [(some ["alice"], none), (some ["alice"], none), (some ["alice"], none)] ∧
    ∀ c ∈ (retrieveItems scripted 2 (GetUsersUsername "alice" Values.empty) threePages).calls,
      c.params "username" = GetUsersUsername "alice" Values.empty "username" :=
  ⟨by decide,
    fun c hc => retrieveItems_frames_filters scripted 2
      (GetUsersUsername "alice" Values.empty) threePages c hc "username"
      (by decide) (by decide)⟩

theorem toDigitsCore_append (base : Nat) :
    ∀ (fuel n : Nat) (ds : List Char),
      Nat.toDigitsCore base fuel n ds = Nat.toDigitsCore base fuel n [] ++ ds := by
  intro fuel
  induction fuel with
  | zero => intro n ds; simp [Nat.toDigitsCore]
  | succ fuel ih =>
    intro n ds
    simp only [Nat.toDigitsCore]
    split
    · simp
    · rw [ih (n / base) (Nat.digitChar (n % base) :: ds),
        ih (n / base) [Nat.digitChar (n % base)]]
      simp

theorem digitChar_value {d : Nat} (h : d < 10) : (Nat.digitChar d).toNat - 48 = d := by
  interval_cases d <;> rfl

theorem foldl_toDigitsCore :
    ∀ (fuel n : Nat), n < fuel →
      (Nat.toDigitsCore 10 fuel n []).foldl (fun acc c => 10 * acc + (c.toNat - 48)) 0
        = n := by
  intro fuel
  induction fuel with
  | zero => intro n h; omega
  | succ fuel ih =>
    intro n h
    simp only [Nat.toDigitsCore]
    split
    · rename_i h0
      have hn : n < 10 := by omega
      simp [List.foldl, Nat.mod_eq_of_lt hn, digitChar_value hn]
    · rename_i h0
      rw [toDigitsCore_append, List.foldl_append, ih (n / 10) (by omega)]
      simp only [List.foldl, digitChar_value (Nat.mod_lt n (by decide : 0 < 10))]
      omega

/-- The decimal text of a number is not empty. -/
theorem FormatUint_ne_empty (n : Nat) : FormatUint n 10 ≠ "" := by
  have h : Nat.toDigits 10 n ≠ [] := by
    unfold Nat.toDigits
    simp only [Nat.toDigitsCore]
    split
    · simp
    · rw [toDigitsCore_append]
      simp
  intro hs
  apply h
  have := congrArg String.data hs
  simpa [FormatUint, List.asString] using this

/-- The decimal text of a number denotes that number. -/
theorem decimalValue_FormatUint (n : Nat) : decimalValue (FormatUint n 10) = n := by
  unfold decimalValue FormatUint Nat.toDigits
  exact foldl_toDigitsCore (n + 1) n (Nat.lt_succ_self n)

/-- C12 (the `Limit` option selects manual mode): for every number `n`, zero and
every unsigned 64-bit value included, `Limit n` binds `limit` to the decimal
text of `n`, which is not empty and denotes `n` ("0" for zero), and leaves every
other key alone; a driver call on parameters built with `Limit n` makes exactly
one fetch call, whose `limit` is that text. -/
theorem Limit_selects_manual_mode (n : Nat) (params : Values) :
    Limit n params "limit" = some [FormatUint n 10] ∧
    FormatUint n 10 ≠ "" ∧ decimalValue (FormatUint n 10) = n ∧
    FormatUint 0 10 = "0" ∧
    (∀ key, key ≠ "limit" → Limit n params key = params key) ∧
    ∀ (fetcher : pageFetcher S ε σ) (fuel : Nat) (s : σ),
      ∃ only, (retrieveItems fetcher fuel (Limit n params) s).calls = [only] ∧
        only.params "limit" = some [FormatUint n 10] := by
  have hget : (Limit n params).Get "limit" ≠ "" := by
    unfold Limit
    rw [Values.Get_Set_same]
    exact FormatUint_ne_empty n
  refine ⟨by simp [Limit, Values.Set], FormatUint_ne_empty n, decimalValue_FormatUint n,
    by decide, fun key hkey => by simp [Limit, Values.Set, hkey], ?_⟩
  intro fetcher fuel s
  rw [retrieveItems_manual fetcher fuel s hget]
  refine ⟨_, rfl, ?_⟩
  show (if (Limit n params).Get "offset" = "" then (Limit n params).Set "offset" "0"
    else Limit n params) "limit" = _
  split <;> simp [Limit, Values.Set]

/-! ## `User.URLValues` -/

/-- C13 (URLValues maps a User to request parameters), evaluated on a user whose
only non-zero field is the username "bob": no map with the single key
`username` is returned; the method panics on the zero-value test of the field
`Aliases`, whatever the formatting function does. -/
theorem URLValues_username_only (Sprintf : Option FieldValue → String) :
    bobUser.fields.map (fun f => f.1)
      = ["alias1", "alias2", "alias3", "alias4", "aliases", "", "email", "firstname", "",
          "", "", "", "lastname", "notes", "", "realname", "status", "", "", "username"] ∧
    bobUser.URLValues Sprintf = .error .uncomparable ∧
    (FieldValue.mapStringString none).equalsZero = .error .uncomparable :=
  ⟨by decide, rfl, rfl⟩

/-- C19 (URLValues is total), refuted on the code: for every `User`, the zero
value, one with a nil `Aliases` map and one with a non-empty `Aliases` map
included, `URLValues` ends in the panic of comparing two interface values of
the map type, and returns no parameter map. -/
theorem URLValues_always_panics (Sprintf : Option FieldValue → String) :
    (∀ u : User, u.URLValues Sprintf = .error .uncomparable) ∧
    zeroUser.URLValues Sprintf = .error .uncomparable ∧
    aliceUser.URLValues Sprintf = .error .uncomparable := by
  refine ⟨?_, rfl, rfl⟩
  intro u
  cases u with
  | mk a1 a2 a3 a4 aliases created email first groups enrolled sync login last notes phones
      real status tokens uid username =>
    cases a1 <;> cases a2 <;> cases a3 <;> cases a4 <;> rfl

/-! ## One turn of the loop -/

/-- C14 (merge step order), evaluated on one turn of the loop: with the
accumulator holding `[A, B]` and the freshly fetched page holding `[C, D]`, the
new accumulator has the new page's metadata (its empty `next_offset` ends the
loop) and the items `[C, D, A, B]`: the new page's items come first, not the
items accumulated before. -/
theorem retrieveLoop_merge_order :
    returnedNames (retrieveLoop scripted 1 (Values.empty.Set "offset" "10")
        (groupsPage ["A", "B"] "10") [groupsOk ["C", "D"] ""])
      = ["C", "D", "A", "B"] ∧
    returnedNames (retrieveLoop scripted 1 (Values.empty.Set "offset" "10")
        (groupsPage ["A", "B"] "10") [groupsOk ["C", "D"] ""])
      ≠ ["A", "B"] ++ ["C", "D"] ∧
    (retrieveLoop scripted 1 (Values.empty.Set "offset" "10")
        (groupsPage ["A", "B"] "10") [groupsOk ["C", "D"] ""]).outcome
      = some (.returned (some (groupsPage ["C", "D", "A", "B"] "")) none) :=
  ⟨by decide, by decide, rfl⟩

/-! ## No fetch after a failure, no bound on the pages -/

/-- Each fetch call of the driver but the first follows a successful call and
is passed that call's cursor. -/
theorem retrieveItems_calls_chain (fetcher : pageFetcher S ε σ) (fuel : Nat)
    (params : Values) (s : σ) :
    List.Chain' advances (retrieveItems fetcher fuel params s).calls := by
  by_cases hl : params.Get "limit" = ""
  · cases he : (fetcher (autoParams params) s).1.err with
    | some e =>
      rw [retrieveItems_auto_err fetcher fuel s hl he]
      simp
    | none =>
      cases hp : (fetcher (autoParams params) s).1.page with
      | none =>
        rw [retrieveItems_auto_nil fetcher fuel s hl he hp]
        simp
      | some accumulator =>
        rw [retrieveItems_auto_ok fetcher fuel s hl he hp, Run.after_calls]
        obtain ⟨h1, h2⟩ := retrieveLoop_advances fetcher fuel
          ((autoParams params).Set "offset" accumulator.metadata.NextOffset) accumulator
          (fetcher (autoParams params) s).2
        refine List.chain'_cons'.2 ⟨?_, h1⟩
        intro d hd
        exact ⟨accumulator, hp, he, by rw [h2 d hd]; simp [Values.Set]⟩
  · rw [retrieveItems_manual fetcher fuel s hl]
    simp

/-- C15 (no retry and no fetch after a failure): in either mode and for every
fetch function and fuel, a fetch call that reports an error is the last call
the driver makes; in manual mode exactly one call is made, failing or not; and
in auto mode, when the first failure is on the call after `pages.length`
successful ones, exactly `pages.length + 1` calls are made and the closure is
left in the state in which the failing call left it. -/
theorem retrieveItems_no_retry (fetcher : pageFetcher S ε σ) (fuel : Nat)
    (params : Values) (s : σ) :
    (∀ (i : Nat) (h : i < (retrieveItems fetcher fuel params s).calls.length),
      ((retrieveItems fetcher fuel params s).calls.get ⟨i, h⟩).result.err ≠ none →
      i + 1 = (retrieveItems fetcher fuel params s).calls.length) ∧
    (params.Get "limit" ≠ "" → (retrieveItems fetcher fuel params s).calls.length = 1) ∧
    (∀ (e : ε) (pages : List (ResponsePage S)) (kind : Kind),
      params.Get "limit" = "" → failsAfter fetcher e (autoParams params) s pages →
      (∀ p ∈ pages, p.kind = kind) → pages.length ≤ fuel →
      (retrieveItems fetcher fuel params s).calls.length = pages.length + 1) := by
  refine ⟨?_, ?_, ?_⟩
  · intro i h herr
    by_contra hne
    have hlt : i + 1 < (retrieveItems fetcher fuel params s).calls.length := by omega
    obtain ⟨page, -, hnone, -⟩ :=
      chain_get _ (retrieveItems_calls_chain fetcher fuel params s) i hlt
    exact herr hnone
  · intro h
    rw [retrieveItems_manual fetcher fuel s h]
    rfl
  · intro e pages kind h hfail hkind hfuel
    exact (retrieveItems_fails fetcher e fuel s pages kind h hfail hkind hfuel).2

/-- C15 at a concrete input: the second of three scripted fetches fails; two
calls are made and the third scripted result is left unused. -/
theorem retrieveItems_no_retry_witness :
    (retrieveItems scripted 5 Values.empty
      [groupsOk ["A", "B"] "10", fetchFails "timeout", groupsOk ["E"] ""]).calls.length
      = 1 + 1 ∧
    (retrieveItems scripted 5 Values.empty
      [groupsOk ["A", "B"] "10", fetchFails "timeout", groupsOk ["E"] ""]).state.length
      = 1 ∧
    (retrieveItems scripted 5 (Values.empty.Set "limit" "2")
      [fetchFails "timeout", groupsOk ["E"] ""]).calls.length = 1 :=
  ⟨(retrieveItems_no_retry scripted 5 Values.empty
      [groupsOk ["A", "B"] "10", fetchFails "timeout", groupsOk ["E"] ""]).1 1
      (by decide) (by decide),
    by decide,
    (retrieveItems_no_retry scripted 5 (Values.empty.Set "limit" "2")
      [fetchFails "timeout", groupsOk ["E"] ""]).2.1 (by decide)⟩

/-- With a fetch function that never ends, the loop uses up any fuel: it makes
one fetch call per unit of fuel and is still running after them. -/
theorem retrieveLoop_never_ends (fetcher : pageFetcher S ε σ) (kind : Kind)
    (hf : neverEnds fetcher kind) (fuel : Nat) :
    ∀ (params : Values) (accumulator : ResponsePage S) (s : σ),
      params.Get "offset" ≠ "" → accumulator.kind = kind →
      (retrieveLoop fetcher fuel params accumulator s).outcome = none ∧
      (retrieveLoop fetcher fuel params accumulator s).calls.length = fuel := by
  induction fuel with
  | zero =>
    intro params accumulator s ho _
    rw [retrieveLoop_zero fetcher accumulator s ho]
    exact ⟨rfl, rfl⟩
  | succ fuel ih =>
    intro params accumulator s ho hk
    obtain ⟨page, hfetch, hnext, hpk⟩ := hf params s
    have he : (fetcher params s).1.err = none := by rw [hfetch]
    have hp : (fetcher params s).1.page = some page := by rw [hfetch]
    obtain ⟨merged, hm⟩ := ResponsePage.appendResponse_of_kind (hk.trans hpk.symm)
    obtain ⟨-, hmeta, hmk, -⟩ := ResponsePage.appendResponse_eq_some hm
    rw [retrieveLoop_step fetcher fuel accumulator s ho he hp hm, Run.after_outcome,
      Run.after_calls, List.length_cons]
    obtain ⟨h1, h2⟩ := ih (params.Set "offset" merged.metadata.NextOffset) merged
      (fetcher params s).2 (by rw [Values.Get_Set_same, hmeta]; exact hnext)
      (hmk.trans hpk)
    exact ⟨h1, by rw [h2]⟩

/-- C16 (unbounded iteration), as amended: with a fetch function that always
succeeds with a page of one result type carrying a non-empty `next_offset`,
the driver in auto mode never returns: whatever the fuel `n`, it has made
`n + 1` fetch calls, more than `n`, and its loop is still running. -/
theorem retrieveItems_never_returns (fetcher : pageFetcher S ε σ) (kind : Kind)
    (params : Values) (s : σ) (n : Nat) (hf : neverEnds fetcher kind)
    (h : params.Get "limit" = "") :
    (retrieveItems fetcher n params s).outcome = none ∧
    (retrieveItems fetcher n params s).calls.length = n + 1 ∧
    n < (retrieveItems fetcher n params s).calls.length := by
  obtain ⟨page, hfetch, hnext, hpk⟩ := hf (autoParams params) s
  have he : (fetcher (autoParams params) s).1.err = none := by rw [hfetch]
  have hp : (fetcher (autoParams params) s).1.page = some page := by rw [hfetch]
  rw [retrieveItems_auto_ok fetcher n s h he hp, Run.after_outcome, Run.after_calls,
    List.length_cons]
  obtain ⟨h1, h2⟩ := retrieveLoop_never_ends fetcher kind hf n
    ((autoParams params).Set "offset" page.metadata.NextOffset) page
    (fetcher (autoParams params) s).2 (by rw [Values.Get_Set_same]; exact hnext) hpk
  exact ⟨h1, by rw [h2], by rw [h2]; exact Nat.lt_succ_self n⟩

/-- C16 at a concrete input: on the cursor cycle "10", "20", "10", ... seven
units of fuel give eight fetch calls and no result. -/
theorem retrieveItems_never_returns_witness :
    neverEnds cycling .groups ∧
    (retrieveItems cycling 7 Values.empty false).outcome = none ∧
    (retrieveItems cycling 7 Values.empty false).calls.length = 7 + 1 ∧
    (retrieveItems cycling 7 Values.empty false).calls.map (fun c => c.params.Get "offset")
      = ["0", "10", "20", "10", "20", "10", "20", "10"] :=
  ⟨fun _ odd => by cases odd <;> exact ⟨_, rfl, by decide, rfl⟩,
    (retrieveItems_never_returns cycling .groups Values.empty false 7
      (fun _ odd => by cases odd <;> exact ⟨_, rfl, by decide, rfl⟩) (by decide)).1,
    (retrieveItems_never_returns cycling .groups Values.empty false 7
      (fun _ odd => by cases odd <;> exact ⟨_, rfl, by decide, rfl⟩) (by decide)).2.1,
    by decide⟩

/-! ## The exact shape of the merged result -/

/-- A merge leaves the status part of the receiver alone. -/
theorem ResponsePage.appendResponse_statResult {page merged : ResponsePage S}
    {items : ResponseItems} (h : page.appendResponse items = some merged) :
    merged.statResult = page.statResult := by
  cases page <;> cases items <;>
    simp [ResponsePage.appendResponse, GetUsersResult.appendResponse,
      GetGroupsResult.appendResponse, GetPhonesResult.appendResponse,
      GetTokensResult.appendResponse, GetU2FTokensResult.appendResponse,
      GetIntegrationsResult.appendResponse, GetAdministratorsResult.appendResponse,
      GetAdministrativeUnitsResult.appendResponse] at h <;>
    subst h <;> rfl

/-- When the loop, entered with the accumulator's cursor as `offset`, returns a
page, that page carries an empty cursor and the metadata, status part and type
of the last page fetched (of the accumulator, when none was fetched). -/
theorem retrieveLoop_last (fetcher : pageFetcher S ε σ) (fuel : Nat) :
    ∀ (params : Values) (accumulator : ResponsePage S) (s : σ) (result : ResponsePage S)
      (err : Option ε), params.Get "offset" = accumulator.metadata.NextOffset →
      (retrieveLoop fetcher fuel params accumulator s).outcome
        = some (.returned (some result) err) →
      result.metadata.NextOffset = "" ∧
      ∃ last, (accumulator :: (retrieveLoop fetcher fuel params accumulator s).pages).getLast?
          = some last ∧
        result.metadata = last.metadata ∧ result.statResult = last.statResult ∧
        result.kind = last.kind := by
  induction fuel with
  | zero =>
    intro params accumulator s result err hoff h
    by_cases ho : params.Get "offset" = ""
    · rw [retrieveLoop_done fetcher 0 accumulator s ho] at h ⊢
      simp only [Option.some.injEq, Outcome.returned.injEq] at h
      obtain ⟨h1, -⟩ := h
      subst h1
      exact ⟨by rw [← hoff]; exact ho, accumulator, rfl, rfl, rfl, rfl⟩
    · rw [retrieveLoop_zero fetcher accumulator s ho] at h
      simp at h
  | succ fuel ih =>
    intro params accumulator s result err hoff h
    by_cases ho : params.Get "offset" = ""
    · rw [retrieveLoop_done fetcher (fuel + 1) accumulator s ho] at h ⊢
      simp only [Option.some.injEq, Outcome.returned.injEq] at h
      obtain ⟨h1, -⟩ := h
      subst h1
      exact ⟨by rw [← hoff]; exact ho, accumulator, rfl, rfl, rfl, rfl⟩
    · rcases retrieveLoop_cases fetcher fuel accumulator s ho with
        ⟨e, _, heq⟩ | ⟨_, _, heq⟩ | ⟨_, _, _, _, heq⟩ | ⟨nextResult, merged, he, hp, hm, heq⟩
      · rw [heq] at h
        simp at h
      · rw [heq] at h
        simp at h
      · rw [heq] at h
        simp at h
      · rw [heq] at h ⊢
        rw [Run.after_outcome] at h
        obtain ⟨-, hmeta, hmk, -⟩ := ResponsePage.appendResponse_eq_some hm
        have hstat := ResponsePage.appendResponse_statResult hm
        obtain ⟨h1, last, hlast, h2, h3, h4⟩ :=
          ih _ merged _ result err (Values.Get_Set_same _ _ _) h
        rw [Run.after_pages _ _ hp]
        rw [List.getLast?_cons_cons]
        rw [List.getLast?_cons] at hlast ⊢
        cases hl : (retrieveLoop fetcher fuel
            (params.Set "offset" merged.metadata.NextOffset) merged
            (fetcher params s).2).pages.getLast? with
        | none =>
          rw [hl] at hlast
          simp only [Option.getD_none, Option.some.injEq] at hlast
          subst hlast
          exact ⟨h1, nextResult, rfl, h2.trans hmeta, h3.trans hstat, h4.trans hmk⟩
        | some final =>
          rw [hl] at hlast
          simp only [Option.getD_some, Option.some.injEq] at hlast
          subst hlast
          exact ⟨h1, final, rfl, h2, h3, h4⟩

/-- C17 (exact shape of the auto-mode result): when the driver returns a page in
auto mode, every fetch call succeeded, and the page returned has the metadata,
status part and type of the last page fetched, an empty `next_offset`, and as
items the items of the fetched pages, each page's items together and in their
own order, the pages in reverse fetch order. -/
theorem retrieveItems_result_shape (fetcher : pageFetcher S ε σ) (fuel : Nat)
    (params : Values) (s : σ) (result : ResponsePage S) (err : Option ε)
    (h : params.Get "limit" = "")
    (hr : (retrieveItems fetcher fuel params s).outcome
      = some (.returned (some result) err)) :
    err = none ∧
    (∀ c ∈ (retrieveItems fetcher fuel params s).calls,
      c.result.err = none ∧ c.result.page ≠ none) ∧
    result.items
      = ((retrieveItems fetcher fuel params s).pages.reverse.map ResponsePage.items).flatten ∧
    result.metadata.NextOffset = "" ∧
    ∃ last, (retrieveItems fetcher fuel params s).pages.getLast? = some last ∧
      result.metadata = last.metadata ∧ result.statResult = last.statResult ∧
      result.kind = last.kind := by
  obtain ⟨h1, h2, h3⟩ := retrieveItems_returned fetcher fuel s h hr
  refine ⟨h1, h3, h2, ?_⟩
  cases he : (fetcher (autoParams params) s).1.err with
  | some e =>
    rw [retrieveItems_auto_err fetcher fuel s h he] at hr
    simp at hr
  | none =>
    cases hp : (fetcher (autoParams params) s).1.page with
    | none =>
      rw [retrieveItems_auto_nil fetcher fuel s h he hp] at hr
      simp at hr
    | some accumulator =>
      rw [retrieveItems_auto_ok fetcher fuel s h he hp] at hr ⊢
      rw [Run.after_outcome] at hr
      rw [Run.after_pages _ _ hp]
      exact retrieveLoop_last fetcher fuel _ accumulator _ result err
        (Values.Get_Set_same _ _ _) hr

/-- C17 at a concrete input: the pages `[A, B]`, `[C, D]`, `[E]` give the items
`[E, C, D, A, B]` on the third page's metadata. -/
theorem retrieveItems_result_shape_witness :
    Values.empty.Get "limit" = "" ∧
    (retrieveItems scripted 2 Values.empty threePages).outcome
      = some (.returned (some (groupsPage ["E", "C", "D", "A", "B"] "")) none) ∧
    (groupsPage ["E", "C", "D", "A", "B"] "").items
      = ((retrieveItems scripted 2 Values.empty threePages).pages.reverse.map
          ResponsePage.items).flatten ∧
    (retrieveItems scripted 2 Values.empty threePages).pages
      = [groupsPage ["A", "B"] "10", groupsPage ["C", "D"] "20", groupsPage ["E"] ""] :=
  ⟨by decide, rfl,
    (retrieveItems_result_shape scripted 2 Values.empty threePages
      (groupsPage ["E", "C", "D", "A", "B"] "") none (by decide) rfl).2.2.1,
    rfl⟩

/-! ## Pagination keys bound to the empty string -/

/-- In auto mode a run depends on the caller's parameters only through the
parameters of the first fetch call. -/
theorem retrieveItems_congr_auto (fetcher : pageFetcher S ε σ) (fuel : Nat)
    {params other : Values} (s : σ) (h1 : params.Get "limit" = "")
    (h2 : other.Get "limit" = "") (h : autoParams params = autoParams other) :
    retrieveItems fetcher fuel params s = retrieveItems fetcher fuel other s := by
  cases he : (fetcher (autoParams params) s).1.err with
  | some e =>
    rw [retrieveItems_auto_err fetcher fuel s h1 he,
      retrieveItems_auto_err fetcher fuel s h2 (h ▸ he), h]
  | none =>
    cases hp : (fetcher (autoParams params) s).1.page with
    | none =>
      rw [retrieveItems_auto_nil fetcher fuel s h1 he hp,
        retrieveItems_auto_nil fetcher fuel s h2 (h ▸ he) (h ▸ hp), h]
    | some accumulator =>
      rw [retrieveItems_auto_ok fetcher fuel s h1 he hp,
        retrieveItems_auto_ok fetcher fuel s h2 (h ▸ he) (h ▸ hp), h]

/-- In manual mode a run depends on the caller's parameters only through the
parameters of the one fetch call. -/
theorem retrieveItems_congr_manual (fetcher : pageFetcher S ε σ) (fuel : Nat)
    {params other : Values} (s : σ) (h1 : params.Get "limit" ≠ "")
    (h2 : other.Get "limit" ≠ "")
    (h : (if params.Get "offset" = "" then params.Set "offset" "0" else params)
      = (if other.Get "offset" = "" then other.Set "offset" "0" else other)) :
    retrieveItems fetcher fuel params s = retrieveItems fetcher fuel other s := by
  rw [retrieveItems_manual fetcher fuel s h1, retrieveItems_manual fetcher fuel s h2, h]

/-- C18 (empty-valued pagination keys count as unset): a parameter set in which
`limit` is bound to the empty string gives the very same run (the same fetch
calls with the same parameters, the same outcome, the same final state) as the
same set without `limit`, in which every call is passed limit "100"; and one in
which `offset` is bound to the empty string gives the very same run as the same
set without `offset`, in which the first call is passed offset "0". -/
theorem retrieveItems_empty_is_unset (fetcher : pageFetcher S ε σ) (fuel : Nat)
    (params : Values) (s : σ) :
    (params "limit" = none →
      retrieveItems fetcher fuel (params.Set "limit" "") s
        = retrieveItems fetcher fuel params s ∧
      ∀ c ∈ (retrieveItems fetcher fuel (params.Set "limit" "") s).calls,
        c.params "limit" = some ["100"]) ∧
    (params "offset" = none →
      retrieveItems fetcher fuel (params.Set "offset" "") s
        = retrieveItems fetcher fuel params s ∧
      ∃ first rest,
        (retrieveItems fetcher fuel (params.Set "offset" "") s).calls = first :: rest ∧
        first.params "offset" = some ["0"]) := by
  refine ⟨?_, ?_⟩
  · intro hnone
    have h1 : (params.Set "limit" "").Get "limit" = "" := Values.Get_Set_same _ _ _
    have h2 : params.Get "limit" = "" := by simp [Values.Get, hnone]
    have hoff : (params.Set "limit" "").Get "offset" = params.Get "offset" :=
      Values.Get_Set_other _ _ (by decide)
    have hauto : autoParams (params.Set "limit" "") = autoParams params := by
      funext key
      unfold autoParams
      rw [hoff]
      by_cases hk : key = "limit"
      · simp [Values.Set, hk]
      · split <;> simp [Values.Set, hk]
    refine ⟨retrieveItems_congr_auto fetcher fuel s h1 h2 hauto, ?_⟩
    intro c hc
    rw [retrieveItems_auto_frame fetcher fuel s h1 c hc "limit" (by decide)]
    simp [autoParams, Values.Set]
  · intro hnone
    have h1 : (params.Set "offset" "").Get "offset" = "" := Values.Get_Set_same _ _ _
    have h2 : params.Get "offset" = "" := by simp [Values.Get, hnone]
    have hlim : (params.Set "offset" "").Get "limit" = params.Get "limit" :=
      Values.Get_Set_other _ _ (by decide)
    have hdef : (if (params.Set "offset" "").Get "offset" = ""
          then (params.Set "offset" "").Set "offset" "0" else params.Set "offset" "")
        = (if params.Get "offset" = "" then params.Set "offset" "0" else params) := by
      rw [if_pos h1, if_pos h2]
      funext key
      by_cases hk : key = "offset" <;> simp [Values.Set, hk]
    have heq : retrieveItems fetcher fuel (params.Set "offset" "") s
        = retrieveItems fetcher fuel params s := by
      by_cases hl : params.Get "limit" = ""
      · refine retrieveItems_congr_auto fetcher fuel s (hlim.trans hl) hl ?_
        unfold autoParams
        rw [hdef]
      · exact retrieveItems_congr_manual fetcher fuel s (by rw [hlim]; exact hl) hl hdef
    refine ⟨heq, ?_⟩
    obtain ⟨first, rest, hcalls, hfirst⟩ :=
      retrieveItems_first_call fetcher fuel (params.Set "offset" "") s
    refine ⟨first, rest, hcalls, ?_⟩
    rw [hfirst]
    by_cases hl : (params.Set "offset" "").Get "limit" = "" <;>
      simp [hl, h1, autoParams, Values.Set]

/-- C18 at a concrete input: with `limit` bound to "" the three pages are
fetched with limit "100" and merged, as without `limit`; with `offset` bound
to "" the first fetch is passed offset "0". -/
theorem retrieveItems_empty_is_unset_witness :
    (retrieveItems scripted 2 (Values.empty.Set "limit" "") threePages
        = retrieveItems scripted 2 Values.empty threePages ∧
      (retrieveItems scripted 2 (Values.empty.Set "limit" "") threePages).calls.map
          (fun c => (c.params "offset", c.params "limit"))
        = [(some ["0"], some ["100"]), (some ["10"], some ["100"]),
            (some ["20"], some ["100"])]) ∧
    (retrieveItems scripted 2 (Values.empty.Set "offset" "") threePages
        = retrieveItems scripted 2 Values.empty threePages ∧
      (retrieveItems scripted 2 (Values.empty.Set "offset" "") threePages).calls.map
          (fun c => c.params "offset")
        = [some ["0"], some ["10"], some ["20"]]) :=
  ⟨⟨((retrieveItems_empty_is_unset scripted 2 Values.empty threePages).1 rfl).1,
      by decide⟩,
    ⟨((retrieveItems_empty_is_unset scripted 2 Values.empty threePages).2 rfl).1,
      by decide⟩⟩

/-! ## A cursor that never ends, on pages of two types -/

/-- C16 as first stated, refuted: the fetch function `alternating` always
succeeds with a page that carries a non-empty `next_offset`, yet the driver in
auto mode stops after two fetch calls, however much fuel is left: the merge of
the second page, of another type than the first, panics on its type
assertion. -/
theorem retrieveItems_alternating_panics :
    alwaysContinues alternating ∧ Values.empty.Get "limit" = "" ∧
    (retrieveItems alternating 5 Values.empty false).outcome
      = some (.panicked .typeAssertion) ∧
    (retrieveItems alternating 5 Values.empty false).calls.length = 2 ∧
    ¬ 5 < (retrieveItems alternating 5 Values.empty false).calls.length ∧
    ∀ fuel, (retrieveItems alternating (fuel + 1) Values.empty false).calls.length = 2 :=
  ⟨fun _ odd => by cases odd <;> exact ⟨_, rfl, by decide⟩, by decide, rfl, rfl, by decide,
    fun _ => rfl⟩

end Claims

end Admin
